import Mathlib

/-!
# fc-ex: a Firecracker microVM orchestrator (`main.go`)

A shallow embedding of `main.go` and the properties of its allocation,
provisioning, registry and signal handling code.

Conventions of the embedding:

* a Go `byte` is a `Nat` reduced `% 256` where the source can overflow;
* a Go `error` value is an `Option String` (`none` is `nil`, `some msg` an
  error whose `Error()` text is `msg`);
* a pointer that can be `nil` is an `Option`;
* calls that leave the process (host commands, the Firecracker SDK, logging
  of a caught signal) are recorded, in program order, as a list of `Call`s;
  their results are inputs of the handler that makes them;
* `log.Fatalf` ends the process: a handler that reaches it yields
  `Outcome.fatal`; a run-time panic inside a handler is recovered by
  `net/http`, the process and its state live on: `Outcome.panic`.
-/

namespace FcEx

/-! ## Go library: `fmt` verbs used by the program -/

/-- An operand of `fmt.Sprintf`. -/
inductive Arg where
  | str (s : String)
  | byte (n : Nat)
  | bytes (bs : List Nat)
  deriving DecidableEq, Repr

/-- Digit table of package `fmt` for the upper-case verbs. -/
def udigits : List Char := "0123456789ABCDEFX".data

/-- Package `fmt`, `fmtSbx`: every byte of the slice as two digits of the table,
high nibble first, nothing in between. -/
def fmtSbx (digits : List Char) (bs : List Nat) : List Char :=
  bs.flatMap fun c => [digits.getD (c / 16) '?', digits.getD (c % 16) '?']

/-- Left padding to a minimum width, with zeros under the `0` flag. -/
def pad (zero : Bool) (width : Nat) (cs : List Char) : List Char :=
  List.replicate (width - cs.length) (if zero then '0' else ' ') ++ cs

/-- One verb applied to one operand: `%s` and `%v` on a string or error text,
`%d` and `%x` on a byte, `%X` on a byte slice. -/
def printVerb (zero : Bool) (width : Nat) (verb : Char) (a : Arg) : List Char :=
  match verb, a with
  | 's', .str s => pad false width s.data
  | 'v', .str s => pad false width s.data
  | 'd', .byte n => pad zero width (Nat.toDigits 10 n)
  | 'x', .byte n => pad zero width (Nat.toDigits 16 n)
  | 'X', .bytes bs => pad zero width (fmtSbx udigits bs)
  | c, _ => ['%', '!', c, '(', 'B', 'A', 'D', ')']

/-- The scanning loop of `fmt.Sprintf`: text is copied, `%` opens a verb with
an optional `0` flag and decimal width, and each verb consumes one operand. -/
def doPrintf : List Char → Option (Bool × Nat) → List Arg → List Char
  | [], none, _ => []
  | [], some _, _ => "%!(NOVERB)".data
  | c :: cs, none, args =>
    if c = '%' then doPrintf cs (some (false, 0)) args else c :: doPrintf cs none args
  | c :: cs, some (zero, width), args =>
    if c = '0' ∧ width = 0 then doPrintf cs (some (true, 0)) args
    else if c.isDigit then doPrintf cs (some (zero, width * 10 + (c.toNat - 48))) args
    else match args with
      | [] => ['%', '!', c, '(', 'M', 'I', 'S', 'S', 'I', 'N', 'G', ')'] ++ doPrintf cs none []
      | a :: rest => printVerb zero width c a ++ doPrintf cs none rest

/-- Go `fmt.Sprintf(format, args...)`. -/
def Sprintf (format : String) (args : List Arg) : String :=
  ⟨doPrintf format.data none args⟩

/-! ## Go library: `net.IP` -/

/-- An IPv4 address, as its four bytes. -/
structure IP where
  b0 : Nat
  b1 : Nat
  b2 : Nat
  b3 : Nat
  deriving DecidableEq, Repr

/-- Go `net.IPv4(a, b, c, d)`. -/
def IPv4 (a b c d : Nat) : IP := ⟨a, b, c, d⟩

/-- Package `net`, `ubtoa`: the decimal text of a byte, one to three digits. -/
def ubtoa (v : Nat) : List Char :=
  if v < 10 then [Char.ofNat (v + 48)]
  else if v < 100 then [Char.ofNat (v / 10 + 48), Char.ofNat (v % 10 + 48)]
  else [Char.ofNat (v / 100 + 48), Char.ofNat (v / 10 % 10 + 48), Char.ofNat (v % 10 + 48)]

/-- Go `IP.String()` on an IPv4 address: dotted decimal. -/
def IP.String (ip : IP) : String :=
  ⟨ubtoa ip.b0 ++ '.' :: ubtoa ip.b1 ++ '.' :: ubtoa ip.b2 ++ '.' :: ubtoa ip.b3⟩

/-! ## Data model -/

def kpath : String := "/home/ubuntu/.ops/nightly/kernel.img"

def fpath : String := "/home/ubuntu/firecracker/firecracker"

structure CreateRequest where
  RootDrivePath : String
  deriving DecidableEq, Repr

structure CreateResponse where
  IpAddress : String
  ID : String
  deriving DecidableEq, Repr

structure DeleteRequest where
  ID : String
  deriving DecidableEq, Repr

structure options where
  Id : String
  IpId : Nat
  FcBinary : String
  FcKernelImage : String
  FcKernelCmdLine : String
  FcRootDrivePath : String
  FcSocketPath : String
  TapMacAddr : String
  TapDev : String
  FcCPUCount : Int
  FcMemSz : Int
  FcIP : String
  deriving DecidableEq, Repr

/-- SDK `models.Drive`. -/
structure Drive where
  DriveID : String
  PathOnHost : String
  IsRootDevice : Bool
  IsReadOnly : Bool
  deriving DecidableEq, Repr

/-- SDK `firecracker.StaticNetworkConfiguration`. -/
structure StaticNetworkConfiguration where
  MacAddress : String
  HostDevName : String
  deriving DecidableEq, Repr

/-- SDK `firecracker.NetworkInterface`. -/
structure NetworkInterface where
  StaticConfiguration : StaticNetworkConfiguration
  deriving DecidableEq, Repr

/-- SDK `models.MachineConfiguration`. -/
structure MachineConfiguration where
  VcpuCount : Int
  MemSizeMib : Int
  deriving DecidableEq, Repr

/-- SDK `firecracker.Config`, the fields `getConfig` sets. -/
structure Config where
  VMID : String
  SocketPath : String
  KernelImagePath : String
  KernelArgs : String
  Drives : List Drive
  NetworkInterfaces : List NetworkInterface
  MachineCfg : MachineConfiguration
  deriving DecidableEq, Repr

/-- The process runner built by `firecracker.VMCommandBuilder`. -/
structure VMCommand where
  Bin : String
  SocketPath : String
  deriving DecidableEq, Repr

/-- Go `context.Context`, as far as the program builds one. -/
inductive Context where
  | background
  | withCancel (parent : Context)
  deriving DecidableEq, Repr

/-- SDK `firecracker.Machine`: the configuration and process runner it was
made with. -/
structure Machine where
  Cfg : Config
  cmd : VMCommand
  deriving DecidableEq, Repr

/-- The registry's value type. `cancelCtx` is the cancel function of the
context it names. All three fields are `nil` in the zero value. -/
structure RunningFirecracker where
  ctx : Option Context
  cancelCtx : Option Context
  machine : Option Machine
  deriving DecidableEq, Repr

/-- The zero value of `RunningFirecracker`, what indexing a Go map yields
for a missing key. -/
def RunningFirecracker.zero : RunningFirecracker := ⟨none, none, none⟩

/-- A call that leaves the program, with its operands. -/
inductive Call where
  | exec (name : String) (args : List String)
  | newMachine (ctx : Context) (cfg : Config) (cmd : VMCommand)
  | start (m : Machine) (ctx : Context)
  | installSignalHandlers (ctx : Context) (m : Machine)
  | stopVMM (m : Option Machine)
  | shutdown (m : Machine) (ctx : Context)
  | goWait (m : Option Machine) (ctx : Option Context)
  | logPrintf (msg : String)
  deriving DecidableEq, Repr

/-- Is the call a host command (`exec.Command(...).Run()`)? -/
def Call.isExec : Call → Bool
  | .exec _ _ => true
  | _ => false

/-- Is the call one of the SDK calls that create or start the engine? -/
def Call.isEngineStart : Call → Bool
  | .newMachine _ _ _ => true
  | .start _ _ => true
  | _ => false

/-- Is the call a stop or shutdown of a machine? -/
def Call.isMachineAction : Call → Bool
  | .stopVMM _ => true
  | .shutdown _ _ => true
  | _ => false

/-! ## The registry: a Go `map[string]RunningFirecracker` -/

abbrev Registry := List (String × RunningFirecracker)

/-- The entry stored under a key, if any. -/
def Registry.find? : Registry → String → Option RunningFirecracker
  | [], _ => none
  | (k, v) :: rest, key => if k = key then some v else Registry.find? rest key

/-- Go `m[key]`: the entry, or the zero value for a missing key. -/
def Registry.index (m : Registry) (key : String) : RunningFirecracker :=
  (m.find? key).getD RunningFirecracker.zero

/-- Go `delete(m, key)`. -/
def Registry.delete (m : Registry) (key : String) : Registry :=
  m.filter fun e => decide (e.1 ≠ key)

/-- Go `m[key] = v`. -/
def Registry.assign (m : Registry) (key : String) (v : RunningFirecracker) : Registry :=
  (key, v) :: m.delete key

/-- The two package-level variables. -/
structure State where
  runningVMs : Registry
  ipByte : Nat
  deriving DecidableEq, Repr

/-- The state at process start: `runningVMs` empty, `ipByte = 3`. -/
def State.init : State := ⟨[], 3⟩

/-! ## Allocation: `getOptions` and `getConfig` -/

def getOptions (id : Nat) (req : CreateRequest) : options :=
  let fc_ip := (IPv4 172 17 0 id).String
  let gateway_ip := "172.17.0.1"
  let docker_mask_long := "255.255.255.0"
  let bootArgs := "ro console=ttyS0 noapic reboot=k panic=1 pci=off nomodules random.trust_cpu=on "
  let bootArgs := bootArgs ++ Sprintf "ip=%s::%s:%s::eth0:off"
    [.str fc_ip, .str gateway_ip, .str docker_mask_long]
  { Id := ""
    IpId := 0
    FcBinary := fpath
    FcKernelImage := kpath
    FcKernelCmdLine := bootArgs
    FcRootDrivePath := req.RootDrivePath
    FcSocketPath := Sprintf "/tmp/firecracker-%d.sock" [.byte id]
    TapMacAddr := Sprintf "02:FC:00:00:00:%02x" [.byte id]
    TapDev := Sprintf "fc-tap-%d" [.byte id]
    FcIP := fc_ip
    FcCPUCount := 1
    FcMemSz := 512 }

def options.getConfig (opts : options) : Config :=
  { VMID := opts.Id
    SocketPath := opts.FcSocketPath
    KernelImagePath := opts.FcKernelImage
    KernelArgs := opts.FcKernelCmdLine
    Drives := [{ DriveID := "1", PathOnHost := opts.FcRootDrivePath,
                 IsRootDevice := true, IsReadOnly := false }]
    NetworkInterfaces :=
      [{ StaticConfiguration := { MacAddress := opts.TapMacAddr, HostDevName := opts.TapDev } }]
    MachineCfg := { VcpuCount := opts.FcCPUCount, MemSizeMib := opts.FcMemSz } }

/-! ## Identifiers: `pseudo_uuid` -/

/-- Go `b[lo:hi]`. -/
def slice (b : List Nat) (lo hi : Nat) : List Nat := (b.take hi).drop lo

/-- The function `pseudo_uuid`; `rnd` is what `rand.Read` did to the 16-byte
buffer: the bytes it wrote, or its error, which is fatal. -/
def pseudo_uuid (rnd : Except String (List Nat)) : Except String String :=
  match rnd with
  | .error err => .error (Sprintf "failed to generate uuid, %s" [.str err])
  | .ok b => .ok (Sprintf "%X-%X-%X-%X-%X"
      [.bytes (slice b 0 4), .bytes (slice b 4 6), .bytes (slice b 6 8),
       .bytes (slice b 8 10), .bytes (b.drop 10)])

/-! ## Signals: `installSignalHandlers` -/

/-- A signal, by its Linux number. -/
abbrev Signal := Nat

/-- Signal `os.Interrupt`, which is `syscall.SIGINT`. -/
def Interrupt : Signal := 2

def SIGQUIT : Signal := 3

def SIGTERM : Signal := 15

/-- One turn of the handler loop: the `switch` on the signal received from
the channel. -/
def handleSignal (ctx : Context) (m : Machine) (s : Signal) : List Call :=
  if s = SIGTERM ∨ s = Interrupt then
    [.logPrintf "Caught SIGINT, requesting clean shutdown", .shutdown m ctx]
  else if s = SIGQUIT then
    [.logPrintf "Caught SIGTERM, forcing shutdown", .stopVMM (some m)]
  else []

/-- The goroutine `installSignalHandlers` starts: the calls its handler loop
makes for the signals it receives from its channel, in order. -/
def installSignalHandlers (ctx : Context) (m : Machine) : List Signal → List Call
  | [] => []
  | s :: rest => handleSignal ctx m s ++ installSignalHandlers ctx m rest

/-! ## Provisioning and engine start: `createVMM` -/

/-- What the outside world answers to one `createVMM`: the error of each
host command and of the two SDK calls, in program order. -/
structure VMMEnv where
  linkDel : Option String
  tuntapAdd : Option String
  rmSocket : Option String
  linkUp : Option String
  proxyArp : Option String
  disableIPv6 : Option String
  newMachine : Option String
  start : Option String
  deriving DecidableEq, Repr

/-- The six host commands of `createVMM`, in program order. -/
def provisionCommands (opts : options) : List Call :=
  [ .exec "ip" ["link", "del", opts.TapDev],
    .exec "ip" ["tuntap", "add", "dev", opts.TapDev, "mode", "tap"],
    .exec "rm" ["-f", opts.FcSocketPath],
    .exec "ip" ["link", "set", opts.TapDev, "up"],
    .exec "sysctl" ["-w", Sprintf "net.ipv4.conf.%s.proxy_arp=1" [.str opts.TapDev]],
    .exec "sysctl" ["-w", Sprintf "net.ipv6.conf.%s.disable_ipv6=1" [.str opts.TapDev]] ]

/-- The method `createVMM`: the calls it makes and what it returns, the handle
or the error. -/
def options.createVMM (opts : options) (ctx : Context) (env : VMMEnv) :
    List Call × Except String RunningFirecracker :=
  let vmmCtx := Context.withCancel ctx
  let fcCfg := opts.getConfig
  let cmd : VMCommand := { Bin := opts.FcBinary, SocketPath := fcCfg.SocketPath }
  let host := provisionCommands opts
  match env.tuntapAdd with
  | some err => (host.take 2, .error (Sprintf "Failed creating ip link: %s" [.str err]))
  | none =>
  match env.rmSocket with
  | some err => (host.take 3, .error (Sprintf "Failed to delete old socket path: %s" [.str err]))
  | none =>
  match env.linkUp with
  | some err => (host.take 4, .error (Sprintf "Failed creating ip link: %s" [.str err]))
  | none =>
  match env.proxyArp with
  | some err => (host.take 5, .error (Sprintf "Failed doing first sysctl: %s" [.str err]))
  | none =>
  match env.disableIPv6 with
  | some err => (host, .error (Sprintf "Failed doing second sysctl: %s" [.str err]))
  | none =>
  match env.newMachine with
  | some err =>
    (host ++ [.newMachine vmmCtx fcCfg cmd],
      .error (Sprintf "Failed creating machine: %s" [.str err]))
  | none =>
  let m : Machine := { Cfg := fcCfg, cmd := cmd }
  match env.start with
  | some err =>
    (host ++ [.newMachine vmmCtx fcCfg cmd, .start m vmmCtx],
      .error (Sprintf "Failed to start machine: %v" [.str err]))
  | none =>
    (host ++ [.newMachine vmmCtx fcCfg cmd, .start m vmmCtx, .installSignalHandlers vmmCtx m],
      .ok { ctx := some vmmCtx, cancelCtx := some vmmCtx, machine := some m })

/-! ## The HTTP handlers -/

/-- How a handler ends: normally, with the new state and the response body
it wrote (if any); in `log.Fatalf`, which ends the process; or in a run-time
panic, which ends the handler only and leaves the state as it then was. -/
inductive Outcome where
  | ok (st : State) (resp : Option CreateResponse)
  | fatal (msg : String)
  | panic (st : State) (msg : String)
  deriving DecidableEq, Repr

structure HandlerResult where
  calls : List Call
  outcome : Outcome
  deriving DecidableEq, Repr

/-- The state the process goes on with after a handler, if it goes on. -/
def Outcome.next : Outcome → Option State
  | .ok st _ => some st
  | .fatal _ => none
  | .panic st _ => some st

/-- The input of one `/create` request: the error of reading the body, the
request decoded from it (the zero value when the body does not parse, as
the result of `json.Unmarshal` is ignored), the answers of the outside world to
`createVMM`, and what `rand.Read` does. -/
structure CreateInput where
  bodyErr : Option String
  req : CreateRequest
  vmm : VMMEnv
  rnd : Except String (List Nat)

/-- The input of one `/delete` request. -/
structure DeleteInput where
  bodyErr : Option String
  req : DeleteRequest

/-- SDK `(*Machine).StopVMM` seen from its caller, who drops the returned
error: the method reads the fields of its receiver, so on a `nil` receiver
it is a nil pointer dereference. -/
def StopVMM : Option Machine → Except String Unit
  | none => .error "runtime error: invalid memory address or nil pointer dereference"
  | some _ => .ok ()

def deleteRequestHandler (st : State) (inp : DeleteInput) : HandlerResult :=
  match inp.bodyErr with
  | some err =>
    { calls := [], outcome := .fatal (Sprintf "failed to read body, %s" [.str err]) }
  | none =>
    let running := st.runningVMs.index inp.req.ID
    match StopVMM running.machine with
    | .error msg => { calls := [.stopVMM running.machine], outcome := .panic st msg }
    | .ok _ =>
      { calls := [.stopVMM running.machine],
        outcome := .ok { st with runningVMs := st.runningVMs.delete inp.req.ID } none }

/-- The counter byte a create request works with: `ipByte += 1`. -/
def nextByte (st : State) : Nat := (st.ipByte + 1) % 256

/-- The allocation of a create request: `opts := getOptions(ipByte, req)`
after the increment. -/
def allocation (st : State) (inp : CreateInput) : options :=
  getOptions (nextByte st) inp.req

def createRequestHandler (st : State) (inp : CreateInput) : HandlerResult :=
  let st := { st with ipByte := nextByte st }
  match inp.bodyErr with
  | some err =>
    { calls := [], outcome := .fatal (Sprintf "failed to read body, %s" [.str err]) }
  | none =>
    let opts := getOptions st.ipByte inp.req
    match opts.createVMM Context.background inp.vmm with
    | (calls, .error err) => { calls := calls, outcome := .fatal err }
    | (calls, .ok running) =>
      match pseudo_uuid inp.rnd with
      | .error err => { calls := calls, outcome := .fatal err }
      | .ok id =>
        let resp : CreateResponse := { IpAddress := opts.FcIP, ID := id }
        { calls := calls ++ [.goWait running.machine running.ctx],
          outcome := .ok { st with runningVMs := st.runningVMs.assign id running } (some resp) }

/-- The function `cleanup`: a stop for every entry of the registry. -/
def cleanup (st : State) : List Call :=
  st.runningVMs.map fun e => .stopVMM e.2.machine

/-! ## Sequences of requests, handled one at a time -/

inductive Request where
  | create (inp : CreateInput)
  | delete (inp : DeleteInput)

def handle (st : State) : Request → HandlerResult
  | .create inp => createRequestHandler st inp
  | .delete inp => deleteRequestHandler st inp

/-- The state after a sequence of requests each of which succeeds; `none` if
one of them does not. -/
def serve : State → List Request → Option State
  | st, [] => some st
  | st, r :: rest =>
    match (handle st r).outcome with
    | .ok st1 _ => serve st1 rest
    | _ => none

/-- The number of create requests in a sequence. -/
def creates : List Request → Nat
  | [] => 0
  | .create _ :: rest => creates rest + 1
  | .delete _ :: rest => creates rest

/-- The allocations computed by the create attempts of a sequence of requests,
in order, for as long as the process lives. A create whose body cannot be read
ends the process before it allocates. -/
def attempts : State → List Request → List options
  | _, [] => []
  | st, r :: rest =>
    (match r with
      | .create inp => if inp.bodyErr.isNone then [allocation st inp] else []
      | .delete _ => []) ++
    (match (handle st r).outcome.next with
      | some st1 => attempts st1 rest
      | none => [])

/-! ## Observations on a machine configuration -/

/-- The host device name of the (single) network interface. -/
def Config.tapDev (cfg : Config) : Option String :=
  cfg.NetworkInterfaces.head?.map fun n => n.StaticConfiguration.HostDevName

/-- The fields of a text between occurrences of a separator. -/
def fieldsOf (sep : Char) (cs : List Char) : List (List Char) :=
  cs.foldr (fun c acc =>
    if c = sep then [] :: acc
    else match acc with
      | [] => [[c]]
      | w :: ws => (c :: w) :: ws) [[]]

/-- The guest address a kernel command line configures: the first field of
its `ip=` parameter, `ip=<client-ip>:<server-ip>:<gw-ip>:<netmask>:...`. -/
def kernelIP (args : String) : Option String :=
  ((fieldsOf ' ' args.data).find? fun w => w.take 3 == ['i', 'p', '=']).map fun w =>
    ⟨(w.drop 3).takeWhile fun c => c != ':'⟩

/-- The guest address of a machine configuration. -/
def Config.guestIP (cfg : Config) : Option String := kernelIP cfg.KernelArgs

/-- No two entries of the registry under different ids have the same guest
address, the same tap device or the same socket path. -/
def RegistryUnique (st : State) : Prop :=
  ∀ id1 id2 e1 e2 m1 m2, id1 ≠ id2 →
    st.runningVMs.find? id1 = some e1 → st.runningVMs.find? id2 = some e2 →
    e1.machine = some m1 → e2.machine = some m2 →
    m1.Cfg.guestIP ≠ m2.Cfg.guestIP ∧ m1.Cfg.tapDev ≠ m2.Cfg.tapDev ∧
      m1.Cfg.SocketPath ≠ m2.Cfg.SocketPath

/-! ## Vocabulary of the properties -/

/-- The number a text of decimal digits denotes. -/
def decVal (cs : List Char) : Nat :=
  cs.foldl (fun acc c => acc * 10 + (c.toNat - 48)) 0

/-- The number a text of lower-case hexadecimal digits denotes. -/
def hexVal (cs : List Char) : Nat :=
  cs.foldl (fun acc c => acc * 16 + (if c.toNat < 58 then c.toNat - 48 else c.toNat - 87)) 0

/-- One field of a dotted-decimal address: decimal digits denoting a byte. -/
def parseOctet (cs : List Char) : Option Nat :=
  if cs ≠ [] ∧ cs.all Char.isDigit ∧ decVal cs < 256 then some (decVal cs) else none

/-- The address a dotted-decimal text denotes. -/
def parseIPv4 (s : String) : Option IP :=
  match (fieldsOf '.' s.data).map parseOctet with
  | [some a, some b, some c, some d] => some ⟨a, b, c, d⟩
  | _ => none

/-- Membership in the network 172.17.0.0/24. -/
def inSubnet (ip : IP) : Prop :=
  ip.b0 = 172 ∧ ip.b1 = 17 ∧ ip.b2 = 0 ∧ ip.b3 < 256

/-- The two upper-case hexadecimal digits of a byte, high digit first. -/
def hexByte (x : Nat) : List Char :=
  [(Nat.digitChar (x / 16)).toUpper, (Nat.digitChar (x % 16)).toUpper]

/-- Is the character one of `0`..`9`, `A`..`F`? -/
def isUpperHexDigit (c : Char) : Bool :=
  c.isDigit || (c.toNat ≥ 65 && c.toNat ≤ 70)

/-- The positions of the separators in an 8-4-4-4-12 grouping. -/
def dashPositions : List Nat := [8, 13, 18, 23]

/-- The errors of the host commands (b) to (f) of `createVMM`, in order. -/
def hostOutcomes (env : VMMEnv) : List (Option String) :=
  [env.tuntapAdd, env.rmSocket, env.linkUp, env.proxyArp, env.disableIPv6]

/-- An outside world in which nothing fails. -/
def okEnv : VMMEnv := ⟨none, none, none, none, none, none, none, none⟩

/-- Sixteen random bytes, the first one given. -/
def idBytes (k : Nat) : List Nat := [k, 16, 32, 48, 64, 80, 96, 112, 128, 144, 160, 176, 192, 208, 224, 240]

/-- The identifier made from `idBytes k`. -/
def idOf (k : Nat) : String :=
  match pseudo_uuid (.ok (idBytes k)) with
  | .ok s => s
  | .error _ => ""

/-- A create request for `/img/root.img` in which nothing fails and
`rand.Read` yields `idBytes k`. -/
def createOk (k : Nat) : Request :=
  .create ⟨none, ⟨"/img/root.img"⟩, okEnv, .ok (idBytes k)⟩

/-- A delete request for the identifier made from `idBytes k`. -/
def deleteOf (k : Nat) : Request := .delete ⟨none, ⟨idOf k⟩⟩

/-- A create followed by the delete of the instance it made. -/
def churn : List Request := [createOk 2, deleteOf 2]

/-- 257 successful creates: one instance that stays, 255 that are deleted
again, one more that stays. -/
def wrapTrace : List Request :=
  createOk 1 :: ((List.replicate 255 churn).flatten ++ [createOk 3])

/-- The registry entry a successful create for `/img/root.img` makes when the
counter byte is `b`. -/
def slot (b : Nat) : RunningFirecracker :=
  { ctx := some (.withCancel .background), cancelCtx := some (.withCancel .background),
    machine := some
      { Cfg := (getOptions b ⟨"/img/root.img"⟩).getConfig,
        cmd := { Bin := fpath, SocketPath := (getOptions b ⟨"/img/root.img"⟩).FcSocketPath } } }

/-- The state `wrapTrace` leads to. -/
def wrapState : State := ⟨[(idOf 3, slot 4), (idOf 1, slot 4)], 4⟩

/-- The machine of `slot b`. -/
def slotMachine (b : Nat) : Machine :=
  { Cfg := (getOptions b ⟨"/img/root.img"⟩).getConfig,
    cmd := { Bin := fpath, SocketPath := (getOptions b ⟨"/img/root.img"⟩).FcSocketPath } }

/-- 258 successful creates: 256 instances that are deleted again, then two
that stay. -/
def longTrace : List Request :=
  (List.replicate 256 churn).flatten ++ [createOk 1, createOk 3]

/-- For every id, the number of the create request that registered it, carried
through a sequence of requests each of which succeeds: `reg` holds the numbers
before the sequence, when `n` creates have been handled. Creates are counted
from 1 in the order they are handled; the id a create returns counts as
registered by that create from then on. -/
def registrations : State → Nat → (String → Nat) → List Request → String → Nat
  | _, _, reg, [] => reg
  | st, n, reg, .create inp :: rest =>
    match (createRequestHandler st inp).outcome with
    | .ok st1 (some resp) =>
      registrations st1 (n + 1) (fun id => if id = resp.ID then n + 1 else reg id) rest
    | _ => reg
  | st, n, reg, .delete inp :: rest =>
    match (deleteRequestHandler st inp).outcome with
    | .ok st1 _ => registrations st1 n reg rest
    | _ => reg

/-- The number, among the creates handled since process start, of the create
request that registered `id`; 0 if none did. -/
def registeredBy (reqs : List Request) (id : String) : Nat :=
  registrations State.init 0 (fun _ => 0) reqs id

/-- After `n` creates since process start, `ipByte` is the byte of the `n`-th
create; every entry of the registry holds a machine made by `createVMM` from
the allocation of the create whose number `idx` gives for its id, one of the
first `n`; and entries under different ids come from different creates. -/
def AllocInv (n : Nat) (idx : String → Nat) (st : State) : Prop :=
  st.ipByte = (3 + n) % 256 ∧
  (∀ id e, st.runningVMs.find? id = some e →
    1 ≤ idx id ∧ idx id ≤ n ∧
    ∃ r, e.machine = some
      { Cfg := (getOptions ((3 + idx id) % 256) r).getConfig,
        cmd := { Bin := fpath, SocketPath := (getOptions ((3 + idx id) % 256) r).FcSocketPath } }) ∧
  (∀ id1 id2 e1 e2, id1 ≠ id2 → st.runningVMs.find? id1 = some e1 →
    st.runningVMs.find? id2 = some e2 → idx id1 ≠ idx id2)

/-! # Theorems -/

/-! ## Text formatting -/

theorem Sprintf_tap (n : Nat) : Sprintf "fc-tap-%d" [.byte n] = "fc-tap-" ++ Nat.repr n := by
  apply String.ext
  simp [Sprintf, doPrintf, printVerb, pad, Nat.repr, List.asString]

theorem Sprintf_sock (n : Nat) :
    Sprintf "/tmp/firecracker-%d.sock" [.byte n] = "/tmp/firecracker-" ++ Nat.repr n ++ ".sock" := by
  apply String.ext
  simp [Sprintf, doPrintf, printVerb, pad, Nat.repr, List.asString]

theorem Sprintf_mac (n : Nat) :
    Sprintf "02:FC:00:00:00:%02x" [.byte n]
      = "02:FC:00:00:00:" ++ String.mk (pad true 2 (Nat.toDigits 16 n)) := by
  apply String.ext
  simp [Sprintf, doPrintf, printVerb]

theorem Sprintf_ip (ip : String) :
    Sprintf "ip=%s::%s:%s::eth0:off" [.str ip, .str "172.17.0.1", .str "255.255.255.0"]
      = "ip=" ++ ip ++ "::172.17.0.1:255.255.255.0::eth0:off" := by
  apply String.ext
  simp [Sprintf, doPrintf, printVerb, pad]

theorem Sprintf_uuid (a b c d e : List Nat) :
    Sprintf "%X-%X-%X-%X-%X" [.bytes a, .bytes b, .bytes c, .bytes d, .bytes e]
      = ⟨fmtSbx udigits a ++ '-' :: fmtSbx udigits b ++ '-' :: fmtSbx udigits c ++ '-' ::
          fmtSbx udigits d ++ '-' :: fmtSbx udigits e⟩ := by
  apply String.ext
  simp [Sprintf, doPrintf, printVerb, pad]

set_option maxRecDepth 100000 in
theorem ubtoa_eq_toDigits : ∀ b < 256, ubtoa b = Nat.toDigits 10 b := by decide!

set_option maxRecDepth 100000 in
theorem decVal_toDigits : ∀ b < 256, decVal (Nat.toDigits 10 b) = b := by decide!

set_option maxRecDepth 100000 in
theorem hexVal_pad_toDigits : ∀ b < 256, hexVal (pad true 2 (Nat.toDigits 16 b)) = b := by decide!

set_option maxRecDepth 100000 in
theorem toDigits_no_leading_zero :
    ∀ b < 256, b ≠ 0 → (Nat.toDigits 10 b).head? ≠ some '0' := by decide!

set_option maxRecDepth 100000 in
theorem parseIPv4_String : ∀ b < 256,
    parseIPv4 (IPv4 172 17 0 b).String = some ⟨172, 17, 0, b⟩ := by decide!

theorem IPv4_String_eq (b : Nat) (hb : b < 256) :
    (IPv4 172 17 0 b).String = "172.17.0." ++ Nat.repr b := by
  apply String.ext
  have h := ubtoa_eq_toDigits b hb
  have h172 : ubtoa 172 = ['1', '7', '2'] := by decide
  have h17 : ubtoa 17 = ['1', '7'] := by decide!
  have h0 : ubtoa 0 = ['0'] := by decide!
  simp [IP.String, IPv4, Nat.repr, List.asString, h, h172, h17, h0]

/-! ## Allocation -/

theorem getOptions_FcIP (b : Nat) (r : CreateRequest) :
    (getOptions b r).FcIP = (IPv4 172 17 0 b).String := rfl

theorem getOptions_TapDev (b : Nat) (r : CreateRequest) :
    (getOptions b r).TapDev = "fc-tap-" ++ Nat.repr b := Sprintf_tap b

theorem getOptions_FcSocketPath (b : Nat) (r : CreateRequest) :
    (getOptions b r).FcSocketPath = "/tmp/firecracker-" ++ Nat.repr b ++ ".sock" :=
  Sprintf_sock b

theorem getOptions_TapMacAddr (b : Nat) (r : CreateRequest) :
    (getOptions b r).TapMacAddr
      = "02:FC:00:00:00:" ++ String.mk (pad true 2 (Nat.toDigits 16 b)) := Sprintf_mac b

theorem getOptions_FcKernelCmdLine (b : Nat) (r : CreateRequest) :
    (getOptions b r).FcKernelCmdLine
      = "ro console=ttyS0 noapic reboot=k panic=1 pci=off nomodules random.trust_cpu=on "
        ++ ("ip=" ++ (getOptions b r).FcIP ++ "::172.17.0.1:255.255.255.0::eth0:off") := by
  show _ ++ Sprintf _ _ = _
  rw [Sprintf_ip]
  rfl

set_option maxRecDepth 100000 in
theorem kernelIP_cmdline : ∀ b < 256,
    kernelIP (getOptions b ⟨""⟩).FcKernelCmdLine = some (IPv4 172 17 0 b).String := by decide!

theorem guestIP_getConfig (b : Nat) (hb : b < 256) (r : CreateRequest) :
    (getOptions b r).getConfig.guestIP = some (getOptions b r).FcIP :=
  kernelIP_cmdline b hb

theorem FcIP_inj (a b : Nat) (ha : a < 256) (hb : b < 256) (r1 r2 : CreateRequest)
    (h : (getOptions a r1).FcIP = (getOptions b r2).FcIP) : a = b := by
  have h1 := congrArg parseIPv4 h
  rw [getOptions_FcIP, getOptions_FcIP, parseIPv4_String a ha, parseIPv4_String b hb] at h1
  simpa using h1

theorem repr_inj (a b : Nat) (ha : a < 256) (hb : b < 256)
    (h : Nat.toDigits 10 a = Nat.toDigits 10 b) : a = b := by
  have h1 := congrArg decVal h
  rwa [decVal_toDigits a ha, decVal_toDigits b hb] at h1

theorem TapDev_inj (a b : Nat) (ha : a < 256) (hb : b < 256) (r1 r2 : CreateRequest)
    (h : (getOptions a r1).TapDev = (getOptions b r2).TapDev) : a = b := by
  rw [getOptions_TapDev, getOptions_TapDev] at h
  have h1 := congrArg String.data h
  simp [Nat.repr, List.asString] at h1
  exact repr_inj a b ha hb h1

theorem FcSocketPath_inj (a b : Nat) (ha : a < 256) (hb : b < 256) (r1 r2 : CreateRequest)
    (h : (getOptions a r1).FcSocketPath = (getOptions b r2).FcSocketPath) : a = b := by
  rw [getOptions_FcSocketPath, getOptions_FcSocketPath] at h
  have h1 := congrArg String.data h
  simp [Nat.repr, List.asString] at h1
  exact repr_inj a b ha hb h1

theorem TapMacAddr_inj (a b : Nat) (ha : a < 256) (hb : b < 256) (r1 r2 : CreateRequest)
    (h : (getOptions a r1).TapMacAddr = (getOptions b r2).TapMacAddr) : a = b := by
  rw [getOptions_TapMacAddr, getOptions_TapMacAddr] at h
  have h1 := congrArg String.data h
  simp at h1
  have h2 := congrArg hexVal h1
  rwa [hexVal_pad_toDigits a ha, hexVal_pad_toDigits b hb] at h2

/-! ## The registry -/

theorem find?_delete_self (m : Registry) (k : String) : (m.delete k).find? k = none := by
  induction m with
  | nil => rfl
  | cons e rest ih =>
    obtain ⟨k1, v⟩ := e
    by_cases hk : k1 = k
    · simpa [Registry.delete, List.filter, hk] using ih
    · simpa [Registry.delete, List.filter, hk, Registry.find?] using ih

theorem find?_delete_ne (m : Registry) (k key : String) (h : key ≠ k) :
    (m.delete k).find? key = m.find? key := by
  induction m with
  | nil => rfl
  | cons e rest ih =>
    obtain ⟨k1, v⟩ := e
    by_cases hk : k1 = k
    · subst hk
      have hne : ¬ k1 = key := fun h1 => h h1.symm
      simpa [Registry.delete, List.filter, Registry.find?, hne] using ih
    · by_cases hkey : k1 = key
      · subst hkey
        simp [Registry.delete, List.filter, hk, Registry.find?]
      · simpa [Registry.delete, List.filter, hk, Registry.find?, hkey] using ih

theorem find?_assign_self (m : Registry) (k : String) (v : RunningFirecracker) :
    (m.assign k v).find? k = some v := by
  simp [Registry.assign, Registry.find?]

theorem find?_assign_ne (m : Registry) (k key : String) (v : RunningFirecracker)
    (h : key ≠ k) : (m.assign k v).find? key = m.find? key := by
  have hne : ¬ k = key := fun h1 => h h1.symm
  simp [Registry.assign, Registry.find?, hne, find?_delete_ne m k key h]

/-! ## `createVMM` -/

/-- The handle `createVMM` returns when nothing fails. -/
theorem createVMM_ok (opts : options) (ctx : Context) (env : VMMEnv) (h : RunningFirecracker)
    (hok : (opts.createVMM ctx env).2 = .ok h) :
    hostOutcomes env = [none, none, none, none, none] ∧ env.newMachine = none ∧
    env.start = none ∧
    h = { ctx := some (.withCancel ctx), cancelCtx := some (.withCancel ctx),
          machine := some { Cfg := opts.getConfig,
                            cmd := { Bin := opts.FcBinary, SocketPath := opts.FcSocketPath } } } := by
  obtain ⟨e1, e2, e3, e4, e5, e6, e7, e8⟩ := env
  cases e2 with
  | some _ => simp [options.createVMM] at hok
  | none =>
  cases e3 with
  | some _ => simp [options.createVMM] at hok
  | none =>
  cases e4 with
  | some _ => simp [options.createVMM] at hok
  | none =>
  cases e5 with
  | some _ => simp [options.createVMM] at hok
  | none =>
  cases e6 with
  | some _ => simp [options.createVMM] at hok
  | none =>
  cases e7 with
  | some _ => simp [options.createVMM] at hok
  | none =>
  cases e8 with
  | some _ => simp [options.createVMM] at hok
  | none =>
    simp [options.createVMM] at hok
    simp [hostOutcomes, ← hok, options.getConfig]

/-! ## The handlers -/

theorem createRequestHandler_ok (st st1 : State) (inp : CreateInput)
    (resp : Option CreateResponse)
    (h : (createRequestHandler st inp).outcome = .ok st1 resp) :
    ∃ id, pseudo_uuid inp.rnd = .ok id ∧ inp.bodyErr = none ∧
      resp = some { IpAddress := (allocation st inp).FcIP, ID := id } ∧
      st1 = { runningVMs := st.runningVMs.assign id
                { ctx := some (.withCancel .background),
                  cancelCtx := some (.withCancel .background),
                  machine := some
                    { Cfg := (allocation st inp).getConfig,
                      cmd := { Bin := fpath, SocketPath := (allocation st inp).FcSocketPath } } },
              ipByte := nextByte st } := by
  unfold createRequestHandler at h
  cases hb : inp.bodyErr with
  | some e => simp [hb] at h
  | none =>
    simp only [hb] at h
    cases hv : (getOptions (nextByte st) inp.req).createVMM Context.background inp.vmm with
    | mk calls res =>
      cases res with
      | error e => simp [hv] at h
      | ok running =>
        have hrun := (createVMM_ok _ _ _ running (by rw [hv])).2.2.2
        cases hu : pseudo_uuid inp.rnd with
        | error e => simp [hv, hu] at h
        | ok id =>
          simp [hv, hu] at h
          refine ⟨id, rfl, rfl, ?_, ?_⟩
          · rw [← h.2]; rfl
          · rw [← h.1, hrun]; rfl

theorem deleteRequestHandler_ok (st st1 : State) (inp : DeleteInput)
    (resp : Option CreateResponse)
    (h : (deleteRequestHandler st inp).outcome = .ok st1 resp) :
    resp = none ∧
      st1 = { runningVMs := st.runningVMs.delete inp.req.ID, ipByte := st.ipByte } := by
  unfold deleteRequestHandler at h
  cases hb : inp.bodyErr with
  | some e => simp [hb] at h
  | none =>
    simp only [hb] at h
    cases hm : (st.runningVMs.index inp.req.ID).machine with
    | none => simp [hm, StopVMM] at h
    | some m =>
      simp [hm, StopVMM] at h
      exact ⟨h.2.symm, h.1.symm⟩

/-! ## The allocation invariant -/

theorem allocInv_init : AllocInv 0 (fun _ => 0) State.init :=
  ⟨rfl, fun _ _ h => by simp [State.init, Registry.find?] at h,
    fun _ _ _ _ _ h => by simp [State.init, Registry.find?] at h⟩

theorem allocInv_create (n : Nat) (idx : String → Nat) (st st1 : State) (inp : CreateInput)
    (resp : Option CreateResponse) (hinv : AllocInv n idx st)
    (h : (createRequestHandler st inp).outcome = .ok st1 resp) :
    ∃ r, resp = some r ∧
      AllocInv (n + 1) (fun id => if id = r.ID then n + 1 else idx id) st1 := by
  obtain ⟨id, -, -, hresp, rfl⟩ := createRequestHandler_ok st st1 inp resp h
  obtain ⟨hbyte, hent, hdist⟩ := hinv
  have hnext : nextByte st = (3 + (n + 1)) % 256 := by
    unfold nextByte
    rw [hbyte]
    omega
  refine ⟨_, hresp, hnext, ?_, ?_⟩
  · intro k e hk
    by_cases hkid : k = id
    · subst hkid
      rw [find?_assign_self] at hk
      simp only [if_true]
      refine ⟨by omega, le_refl _, inp.req, ?_⟩
      rw [← Option.some.inj hk]
      simp only [allocation, hnext]
    · rw [find?_assign_ne _ _ _ _ hkid] at hk
      simp only [if_neg hkid]
      obtain ⟨h1, h2, r, hr⟩ := hent k e hk
      exact ⟨h1, by omega, r, hr⟩
  · intro k1 k2 e1 e2 hne h1 h2
    by_cases hk1 : k1 = id
    · subst hk1
      have hk2 : k2 ≠ k1 := fun h => hne h.symm
      rw [find?_assign_ne _ _ _ _ hk2] at h2
      simp only [if_true, if_neg hk2]
      have := (hent k2 e2 h2).2.1
      omega
    · rw [find?_assign_ne _ _ _ _ hk1] at h1
      by_cases hk2 : k2 = id
      · subst hk2
        simp only [if_true, if_neg hk1]
        have := (hent k1 e1 h1).2.1
        omega
      · rw [find?_assign_ne _ _ _ _ hk2] at h2
        simp only [if_neg hk1, if_neg hk2]
        exact hdist k1 k2 e1 e2 hne h1 h2

theorem find?_delete_some (m : Registry) (k key : String) (e : RunningFirecracker)
    (h : (m.delete k).find? key = some e) : key ≠ k ∧ m.find? key = some e := by
  by_cases hk : key = k
  · subst hk
    rw [find?_delete_self] at h
    cases h
  · exact ⟨hk, by rwa [find?_delete_ne m k key hk] at h⟩

theorem allocInv_delete (n : Nat) (idx : String → Nat) (st st1 : State) (inp : DeleteInput)
    (resp : Option CreateResponse) (hinv : AllocInv n idx st)
    (h : (deleteRequestHandler st inp).outcome = .ok st1 resp) : AllocInv n idx st1 := by
  obtain ⟨-, rfl⟩ := deleteRequestHandler_ok st st1 inp resp h
  obtain ⟨hbyte, hent, hdist⟩ := hinv
  refine ⟨hbyte, ?_, ?_⟩
  · intro k e hk
    exact hent k e (find?_delete_some _ _ _ _ hk).2
  · intro k1 k2 e1 e2 hne h1 h2
    exact hdist k1 k2 e1 e2 hne (find?_delete_some _ _ _ _ h1).2
      (find?_delete_some _ _ _ _ h2).2

theorem allocInv_serve (reqs : List Request) :
    ∀ (n : Nat) (idx : String → Nat) (st st1 : State), AllocInv n idx st →
      serve st reqs = some st1 →
      AllocInv (n + creates reqs) (registrations st n idx reqs) st1 := by
  induction reqs with
  | nil =>
    intro n idx st st1 hinv h
    simp only [serve, Option.some.injEq] at h
    subst h
    simpa [creates, registrations] using hinv
  | cons r rest ih =>
    intro n idx st st1 hinv h
    simp only [serve] at h
    cases ho : (handle st r).outcome with
    | fatal msg => simp [ho] at h
    | panic st2 msg => simp [ho] at h
    | ok st2 resp =>
      simp only [ho] at h
      cases r with
      | create inp =>
        have ho1 : (createRequestHandler st inp).outcome = .ok st2 resp := ho
        obtain ⟨r, hr, hinv1⟩ := allocInv_create n idx st st2 inp resp hinv ho1
        have h2 := ih (n + 1) _ st2 st1 hinv1 h
        have hc : n + creates (Request.create inp :: rest) = n + 1 + creates rest := by
          simp only [creates]; omega
        rw [hc]
        simp only [registrations, ho1, hr]
        exact h2
      | delete inp =>
        have ho1 : (deleteRequestHandler st inp).outcome = .ok st2 resp := ho
        have h2 := ih n idx st2 st1 (allocInv_delete n idx st st2 inp resp hinv ho1) h
        simp only [registrations, ho1, creates]
        exact h2

theorem allocInv_reached (reqs : List Request) (st : State)
    (h : serve State.init reqs = some st) :
    AllocInv (creates reqs) (registeredBy reqs) st := by
  have := allocInv_serve reqs 0 (fun _ => 0) State.init st allocInv_init h
  rwa [Nat.zero_add] at this

theorem getConfig_tapDev (opts : options) : opts.getConfig.tapDev = some opts.TapDev := rfl

/-- What entries made from different counter bytes differ in, and entries made
from the same byte agree in. -/
theorem getConfig_byte (a b : Nat) (ha : a < 256) (hb : b < 256) (r1 r2 : CreateRequest) :
    (a ≠ b →
      (getOptions a r1).getConfig.guestIP ≠ (getOptions b r2).getConfig.guestIP ∧
      (getOptions a r1).getConfig.tapDev ≠ (getOptions b r2).getConfig.tapDev ∧
      (getOptions a r1).getConfig.SocketPath ≠ (getOptions b r2).getConfig.SocketPath) ∧
    (a = b →
      (getOptions a r1).getConfig.guestIP = (getOptions b r2).getConfig.guestIP ∧
      (getOptions a r1).getConfig.tapDev = (getOptions b r2).getConfig.tapDev ∧
      (getOptions a r1).getConfig.SocketPath = (getOptions b r2).getConfig.SocketPath) := by
  constructor
  · intro hne
    refine ⟨?_, ?_, ?_⟩
    · intro h
      rw [guestIP_getConfig _ ha, guestIP_getConfig _ hb] at h
      exact hne (FcIP_inj _ _ ha hb r1 r2 (Option.some.inj h))
    · intro h
      rw [getConfig_tapDev, getConfig_tapDev] at h
      exact hne (TapDev_inj _ _ ha hb r1 r2 (Option.some.inj h))
    · intro h
      exact hne (FcSocketPath_inj _ _ ha hb r1 r2 h)
  · intro heq
    subst heq
    refine ⟨?_, ?_, ?_⟩
    · rw [guestIP_getConfig _ ha, guestIP_getConfig _ ha, getOptions_FcIP, getOptions_FcIP]
    · rw [getConfig_tapDev, getConfig_tapDev, getOptions_TapDev, getOptions_TapDev]
    · show (getOptions a r1).FcSocketPath = (getOptions a r2).FcSocketPath
      rw [getOptions_FcSocketPath, getOptions_FcSocketPath]

theorem registryUnique_of_allocInv (n : Nat) (idx : String → Nat) (st : State)
    (hinv : AllocInv n idx st) (hn : n ≤ 256) : RegistryUnique st := by
  obtain ⟨-, hent, hdist⟩ := hinv
  intro id1 id2 e1 e2 m1 m2 hne h1 h2 hm1 hm2
  obtain ⟨l1, u1, r1, hr1⟩ := hent id1 e1 h1
  obtain ⟨l2, u2, r2, hr2⟩ := hent id2 e2 h2
  have hd := hdist id1 id2 e1 e2 hne h1 h2
  rw [hm1] at hr1
  rw [hm2] at hr2
  cases hr1
  cases hr2
  have hb1 : (3 + idx id1) % 256 < 256 := Nat.mod_lt _ (by decide)
  have hb2 : (3 + idx id2) % 256 < 256 := Nat.mod_lt _ (by decide)
  have hbne : (3 + idx id1) % 256 ≠ (3 + idx id2) % 256 := by omega
  exact (getConfig_byte _ _ hb1 hb2 r1 r2).1 hbne

theorem createRequestHandler_succeeds (st : State) (inp : CreateInput) (b : List Nat)
    (hbody : inp.bodyErr = none) (hhost : hostOutcomes inp.vmm = [none, none, none, none, none])
    (hnew : inp.vmm.newMachine = none) (hstart : inp.vmm.start = none)
    (hrnd : inp.rnd = .ok b) :
    ∃ st1 id, (createRequestHandler st inp).outcome
      = .ok st1 (some { IpAddress := (allocation st inp).FcIP, ID := id }) := by
  obtain ⟨bodyErr, req, ⟨e1, e2, e3, e4, e5, e6, e7, e8⟩, rnd⟩ := inp
  simp only [hostOutcomes, List.cons.injEq, and_true] at hhost
  obtain ⟨h2, h3, h4, h5, h6⟩ := hhost
  simp only at hbody hnew hstart hrnd
  subst hbody h2 h3 h4 h5 h6 hnew hstart hrnd
  simp [createRequestHandler, options.createVMM, pseudo_uuid, allocation]

theorem serve_ipByte (reqs : List Request) (st : State)
    (h : serve State.init reqs = some st) : st.ipByte = (3 + creates reqs) % 256 :=
  (allocInv_reached reqs st h).1

/-- The registry of a state reached by at most 256 creates is unique. -/
theorem registryUnique_within_256_creates (reqs : List Request) (st : State)
    (hserve : serve State.init reqs = some st) (hcount : creates reqs ≤ 256) :
    RegistryUnique st :=
  registryUnique_of_allocInv _ _ st (allocInv_reached reqs st hserve) hcount

/-- C1, as amended: in every state reached from the initial state by a
sequence of successful create and delete requests, handled one at a time, any
two instances live in the registry under different ids were registered by
different creates, number `k1` and number `k2` of the creates handled, each
holding the machine made for counter byte `(3 + k) % 256` of its create; they
have the same guest IP address, the same tap device name or the same socket
path only if `k1` and `k2` are congruent modulo 256 (and then they have all
three in common), which takes the older of the two to have stayed registered
across 256 or more later creates; so two live instances that have each seen
fewer than 256 later creates differ in IP address, tap device name and socket
path, however many creates the process has handled. -/
theorem C1_registry_unique_up_to_wraparound (reqs : List Request) (st : State)
    (hserve : serve State.init reqs = some st) (id1 id2 : String)
    (e1 e2 : RunningFirecracker) (m1 m2 : Machine) (hne : id1 ≠ id2)
    (h1 : st.runningVMs.find? id1 = some e1) (h2 : st.runningVMs.find? id2 = some e2)
    (hm1 : e1.machine = some m1) (hm2 : e2.machine = some m2) :
    (1 ≤ registeredBy reqs id1 ∧ registeredBy reqs id1 ≤ creates reqs) ∧
    (1 ≤ registeredBy reqs id2 ∧ registeredBy reqs id2 ≤ creates reqs) ∧
    registeredBy reqs id1 ≠ registeredBy reqs id2 ∧
    (∃ r, m1.Cfg = (getOptions ((3 + registeredBy reqs id1) % 256) r).getConfig) ∧
    (∃ r, m2.Cfg = (getOptions ((3 + registeredBy reqs id2) % 256) r).getConfig) ∧
    ((m1.Cfg.guestIP = m2.Cfg.guestIP ∨ m1.Cfg.tapDev = m2.Cfg.tapDev ∨
        m1.Cfg.SocketPath = m2.Cfg.SocketPath) →
      registeredBy reqs id1 % 256 = registeredBy reqs id2 % 256 ∧
      (creates reqs - registeredBy reqs id1 ≥ 256 ∨
        creates reqs - registeredBy reqs id2 ≥ 256)) ∧
    (registeredBy reqs id1 % 256 = registeredBy reqs id2 % 256 →
      m1.Cfg.guestIP = m2.Cfg.guestIP ∧ m1.Cfg.tapDev = m2.Cfg.tapDev ∧
        m1.Cfg.SocketPath = m2.Cfg.SocketPath) ∧
    (creates reqs - registeredBy reqs id1 < 256 →
      creates reqs - registeredBy reqs id2 < 256 →
      m1.Cfg.guestIP ≠ m2.Cfg.guestIP ∧ m1.Cfg.tapDev ≠ m2.Cfg.tapDev ∧
        m1.Cfg.SocketPath ≠ m2.Cfg.SocketPath) := by
  obtain ⟨-, hent, hdist⟩ := allocInv_reached reqs st hserve
  obtain ⟨l1, u1, r1, hr1⟩ := hent id1 e1 h1
  obtain ⟨l2, u2, r2, hr2⟩ := hent id2 e2 h2
  have hd := hdist id1 id2 e1 e2 hne h1 h2
  rw [hm1] at hr1
  rw [hm2] at hr2
  cases hr1
  cases hr2
  have hb1 : (3 + registeredBy reqs id1) % 256 < 256 := Nat.mod_lt _ (by decide)
  have hb2 : (3 + registeredBy reqs id2) % 256 < 256 := Nat.mod_lt _ (by decide)
  have hbyte := getConfig_byte _ _ hb1 hb2 r1 r2
  refine ⟨⟨l1, u1⟩, ⟨l2, u2⟩, hd, ⟨r1, rfl⟩, ⟨r2, rfl⟩, ?_, ?_, ?_⟩
  · intro hshare
    have hcong : (3 + registeredBy reqs id1) % 256 = (3 + registeredBy reqs id2) % 256 := by
      by_contra hbne
      obtain ⟨n1, n2, n3⟩ := hbyte.1 hbne
      rcases hshare with h | h | h
      · exact n1 h
      · exact n2 h
      · exact n3 h
    constructor <;> omega
  · intro hcong
    exact hbyte.2 (by omega)
  · intro a1 a2
    exact hbyte.1 (by omega)

set_option maxRecDepth 1000000 in
theorem C1_registry_unique_up_to_wraparound_witness :
    serve State.init longTrace = some ⟨[(idOf 3, slot 5), (idOf 1, slot 4)], 5⟩ ∧
      creates longTrace = 258 ∧
      registeredBy longTrace (idOf 1) = 257 ∧ registeredBy longTrace (idOf 3) = 258 ∧
      (slotMachine 4).Cfg.guestIP ≠ (slotMachine 5).Cfg.guestIP ∧
      (slotMachine 4).Cfg.tapDev ≠ (slotMachine 5).Cfg.tapDev ∧
      (slotMachine 4).Cfg.SocketPath ≠ (slotMachine 5).Cfg.SocketPath :=
  ⟨by decide!, by decide!, by decide!, by decide!,
    (C1_registry_unique_up_to_wraparound longTrace ⟨[(idOf 3, slot 5), (idOf 1, slot 4)], 5⟩
      (by decide!) (idOf 1) (idOf 3) (slot 4) (slot 5) (slotMachine 4) (slotMachine 5)
      (by decide!) (by decide!) (by decide!) rfl rfl).2.2.2.2.2.2.2 (by decide!) (by decide!)⟩

set_option maxRecDepth 1000000 in
/-- C1 fails as stated: the 257 successful creates of `wrapTrace` (255 of the
instances deleted again) leave two instances in the registry, both made with
counter byte 4, with the same guest IP address, tap device and socket path. -/
theorem C1_counterexample_wraparound :
    serve State.init wrapTrace = some wrapState ∧ creates wrapTrace = 257 ∧
      idOf 1 ≠ idOf 3 ∧
      wrapState.runningVMs.find? (idOf 1) = some (slot 4) ∧
      wrapState.runningVMs.find? (idOf 3) = some (slot 4) ∧
      (slot 4).machine.map (fun m => (m.Cfg.guestIP, m.Cfg.tapDev, m.Cfg.SocketPath))
        = some (some "172.17.0.4", some "fc-tap-4", "/tmp/firecracker-4.sock") ∧
      ¬ RegistryUnique wrapState := by
  refine ⟨by decide!, by decide!, by decide!, by decide!, by decide!, by decide!, ?_⟩
  intro h
  exact (h (idOf 1) (idOf 3) (slot 4) (slot 4) _ _ (by decide!) (by decide!) (by decide!)
    rfl rfl).2.2 rfl

theorem serve_machine (reqs : List Request) (st : State)
    (h : serve State.init reqs = some st) (id : String) (e : RunningFirecracker)
    (hkey : st.runningVMs.find? id = some e) : ∃ m, e.machine = some m := by
  obtain ⟨-, hent, -⟩ := allocInv_reached reqs st h
  obtain ⟨-, -, r, hr⟩ := hent id e hkey
  exact ⟨_, hr⟩

/-- C3, as amended: from the initial state (`ipByte = 3`, incremented before
use), after any successfully handled requests of which exactly one is a create,
the next create request, the 2nd ever handled, yields
`ip_address = "172.17.0.5"` whatever its body, `/img/root.img` included: any
response it writes carries that address, and it writes one when nothing in
its environment fails. -/
theorem C3_second_create_ip (reqs : List Request) (st : State)
    (hserve : serve State.init reqs = some st) (hone : creates reqs = 1)
    (inp : CreateInput) :
    (∀ st1 resp, (createRequestHandler st inp).outcome = .ok st1 resp →
      ∃ id, resp = some { IpAddress := "172.17.0.5", ID := id }) ∧
    (inp.bodyErr = none → inp.vmm = okEnv → ∀ b, inp.rnd = .ok b →
      ∃ st1 id, (createRequestHandler st inp).outcome
        = .ok st1 (some { IpAddress := "172.17.0.5", ID := id })) := by
  have hbyte := serve_ipByte reqs st hserve
  rw [hone] at hbyte
  have hip : (allocation st inp).FcIP = "172.17.0.5" := by
    simp only [allocation, nextByte, hbyte, getOptions_FcIP]
    decide
  constructor
  · intro st1 resp hok
    obtain ⟨id, -, -, hresp, -⟩ := createRequestHandler_ok st st1 inp resp hok
    exact ⟨id, by rw [hresp, hip]⟩
  · intro hbody hvmm b hrnd
    have := createRequestHandler_succeeds st inp b hbody (by rw [hvmm]; rfl)
      (by rw [hvmm]; rfl) (by rw [hvmm]; rfl) hrnd
    rwa [hip] at this

theorem C3_second_create_ip_witness :
    ∃ st1 id, (createRequestHandler ⟨[(idOf 1, slot 4)], 4⟩
        ⟨none, ⟨"/img/root.img"⟩, okEnv, .ok (idBytes 2)⟩).outcome
      = .ok st1 (some { IpAddress := "172.17.0.5", ID := id }) :=
  (C3_second_create_ip [createOk 1] ⟨[(idOf 1, slot 4)], 4⟩ (by decide!) (by decide)
    ⟨none, ⟨"/img/root.img"⟩, okEnv, .ok (idBytes 2)⟩).2 rfl rfl (idBytes 2) rfl

/-- C3 fails as stated: from the initial state it is the 1st create that
yields `172.17.0.4`; the 2nd create, with body `/img/root.img`, yields
`172.17.0.5`. -/
theorem C3_counterexample_second_create :
    (handle State.init (createOk 1)).outcome
        = .ok ⟨[(idOf 1, slot 4)], 4⟩ (some { IpAddress := "172.17.0.4", ID := idOf 1 }) ∧
      (handle ⟨[(idOf 1, slot 4)], 4⟩ (createOk 2)).outcome
        = .ok ⟨[(idOf 2, slot 5), (idOf 1, slot 4)], 5⟩
            (some { IpAddress := "172.17.0.5", ID := idOf 2 }) ∧
      (handle ⟨[(idOf 1, slot 4)], 4⟩ (createOk 2)).outcome
        ≠ .ok ⟨[(idOf 2, slot 5), (idOf 1, slot 4)], 5⟩
            (some { IpAddress := "172.17.0.4", ID := idOf 2 }) := by
  refine ⟨by decide!, by decide!, by decide!⟩

/-- C4: in every state the handlers lead to from the initial state, a delete
request for an id that is a key of `runningVMs` makes exactly one call, a
`StopVMM` on the machine stored under that id, and ends normally with the
registry no longer holding that id and holding under every other id what it
held before. -/
theorem C4_delete_registered_id (reqs : List Request) (st : State)
    (hserve : serve State.init reqs = some st) (inp : DeleteInput)
    (hbody : inp.bodyErr = none) (e : RunningFirecracker)
    (hkey : st.runningVMs.find? inp.req.ID = some e) :
    ∃ m st1, e.machine = some m ∧
      deleteRequestHandler st inp = { calls := [.stopVMM (some m)], outcome := .ok st1 none } ∧
      st1.runningVMs.find? inp.req.ID = none ∧
      (∀ id, id ≠ inp.req.ID → st1.runningVMs.find? id = st.runningVMs.find? id) ∧
      st1.ipByte = st.ipByte := by
  obtain ⟨m, hm⟩ := serve_machine reqs st hserve _ e hkey
  refine ⟨m, ⟨st.runningVMs.delete inp.req.ID, st.ipByte⟩, hm, ?_, find?_delete_self _ _,
    fun id hid => find?_delete_ne _ _ _ hid, rfl⟩
  simp [deleteRequestHandler, hbody, Registry.index, hkey, hm, StopVMM]

theorem C4_delete_registered_id_witness :
    ∃ m st1, (slot 4).machine = some m ∧
      deleteRequestHandler ⟨[(idOf 3, slot 5), (idOf 1, slot 4)], 5⟩ ⟨none, ⟨idOf 1⟩⟩
        = { calls := [.stopVMM (some m)], outcome := .ok st1 none } ∧
      st1.runningVMs.find? (idOf 1) = none ∧
      (∀ id, id ≠ idOf 1 → st1.runningVMs.find? id
        = Registry.find? [(idOf 3, slot 5), (idOf 1, slot 4)] id) ∧
      st1.ipByte = 5 :=
  C4_delete_registered_id [createOk 1, createOk 3] ⟨[(idOf 3, slot 5), (idOf 1, slot 4)], 5⟩
    (by decide!) ⟨none, ⟨idOf 1⟩⟩ rfl (slot 4) (by decide!)

/-- A delete request for an id that is not a key of `runningVMs` calls
`StopVMM` on the nil machine of the zero value and panics. -/
theorem deleteRequestHandler_unknown (st : State) (inp : DeleteInput)
    (hbody : inp.bodyErr = none) (hkey : st.runningVMs.find? inp.req.ID = none) :
    deleteRequestHandler st inp
      = { calls := [.stopVMM none],
          outcome := .panic st
            "runtime error: invalid memory address or nil pointer dereference" } := by
  simp [deleteRequestHandler, hbody, Registry.index, hkey, RunningFirecracker.zero, StopVMM]

/-- C5 fails on the code: after a create and the delete of the instance it
made, a second delete of the same id finds no entry, calls `StopVMM` on the
nil machine handle of the zero value, and panics in the nil dereference. -/
theorem C5_delete_unknown_id_stops_nil_machine :
    serve State.init [createOk 1, deleteOf 1] = some ⟨[], 4⟩ ∧
      Registry.find? [] (idOf 1) = none ∧
      deleteRequestHandler ⟨[], 4⟩ ⟨none, ⟨idOf 1⟩⟩
        = { calls := [.stopVMM none], outcome := .panic ⟨[], 4⟩
              "runtime error: invalid memory address or nil pointer dereference" } := by
  refine ⟨by decide!, by decide!, by decide!⟩

theorem nextByte_lt (st : State) : nextByte st < 256 := Nat.mod_lt _ (by decide)

/-- C2: for every counter byte `b` and create request `r`, the address
`getOptions b r` assigns is the text `172.17.0.` followed by the decimal
rendering of `b`, which has no leading zero; it denotes an address of
172.17.0.0/24 with last byte `b`; and it is the `ip_address` of any response
`createRequestHandler` writes when working with counter byte `b`. -/
theorem C2_ip_address_format (b : Nat) (hb : b < 256) (r : CreateRequest) :
    (getOptions b r).FcIP = "172.17.0." ++ Nat.repr b ∧
    (b ≠ 0 → (Nat.repr b).data.head? ≠ some '0') ∧
    (∃ ip, parseIPv4 (getOptions b r).FcIP = some ip ∧ inSubnet ip ∧ ip.b3 = b) ∧
    (∀ st inp st1 resp, nextByte st = b → inp.req = r →
      (createRequestHandler st inp).outcome = .ok st1 resp →
      ∃ id, resp = some { IpAddress := "172.17.0." ++ Nat.repr b, ID := id }) := by
  have hip : (getOptions b r).FcIP = "172.17.0." ++ Nat.repr b := by
    rw [getOptions_FcIP, IPv4_String_eq b hb]
  refine ⟨hip, ?_, ?_, ?_⟩
  · intro h0
    exact toDigits_no_leading_zero b hb h0
  · refine ⟨⟨172, 17, 0, b⟩, ?_, ⟨rfl, rfl, rfl, hb⟩, rfl⟩
    rw [getOptions_FcIP]
    exact parseIPv4_String b hb
  · intro st inp st1 resp hnext hreq hok
    obtain ⟨id, -, -, hresp, -⟩ := createRequestHandler_ok st st1 inp resp hok
    refine ⟨id, ?_⟩
    rw [hresp, allocation, hnext, hreq, hip]

theorem C2_ip_address_format_witness :
    4 < 256 ∧ (getOptions 4 ⟨"/img/root.img"⟩).FcIP = "172.17.0.4" :=
  ⟨by decide, (C2_ip_address_format 4 (by decide) ⟨"/img/root.img"⟩).1.trans (by decide)⟩

/-- C9: the kernel command line of `getOptions b r` is the fixed prefix
followed by `ip=<IP>::172.17.0.1:255.255.255.0::eth0:off` with `<IP>` the
`FcIP` of the same options value; it does not depend on `r`; `getConfig`
passes it on unchanged as `KernelArgs`; and after a successful create the
machine in the registry has that command line for the address the response
carries. -/
theorem C9_kernel_cmdline (b : Nat) (r : CreateRequest) :
    (getOptions b r).FcKernelCmdLine
      = "ro console=ttyS0 noapic reboot=k panic=1 pci=off nomodules random.trust_cpu=on "
        ++ ("ip=" ++ (getOptions b r).FcIP ++ "::172.17.0.1:255.255.255.0::eth0:off") ∧
    (∀ r1, (getOptions b r1).FcKernelCmdLine = (getOptions b r).FcKernelCmdLine) ∧
    (∀ r1, (getOptions b r1).FcIP = (getOptions b r).FcIP) ∧
    (getOptions b r).getConfig.KernelArgs = (getOptions b r).FcKernelCmdLine ∧
    (∀ st inp st1 resp, nextByte st = b → inp.req = r →
      (createRequestHandler st inp).outcome = .ok st1 resp →
      ∃ id e m, resp = some { IpAddress := (getOptions b r).FcIP, ID := id } ∧
        st1.runningVMs.find? id = some e ∧ e.machine = some m ∧
        m.Cfg.KernelArgs = (getOptions b r).FcKernelCmdLine ∧
        m.Cfg.guestIP = some (getOptions b r).FcIP) := by
  refine ⟨getOptions_FcKernelCmdLine b r, ?_, ?_, ?_, ?_⟩
  · intro r1
    rw [getOptions_FcKernelCmdLine, getOptions_FcKernelCmdLine, getOptions_FcIP, getOptions_FcIP]
  · intro r1
    rw [getOptions_FcIP, getOptions_FcIP]
  · simp only [options.getConfig]
  intro st inp st1 resp hnext hreq hok
  obtain ⟨id, -, -, hresp, hst⟩ := createRequestHandler_ok st st1 inp resp hok
  have hb : b < 256 := hnext ▸ nextByte_lt st
  have halloc : allocation st inp = getOptions b r := by rw [allocation, hnext, hreq]
  rw [halloc] at hresp hst
  subst hst
  refine ⟨id, _, _, hresp, find?_assign_self _ _ _, rfl, ?_, ?_⟩
  · simp only [options.getConfig]
  · exact guestIP_getConfig b hb r


/-! ## Create attempts -/

theorem createRequestHandler_next (st st1 : State) (inp : CreateInput)
    (h : (createRequestHandler st inp).outcome.next = some st1) :
    st1.ipByte = nextByte st ∧ inp.bodyErr = none := by
  cases ho : (createRequestHandler st inp).outcome with
  | ok st2 resp =>
    rw [ho] at h
    obtain ⟨id, -, hbody, -, hst⟩ := createRequestHandler_ok st st2 inp resp ho
    simp only [Outcome.next, Option.some.injEq] at h
    subst h
    exact ⟨by rw [hst], hbody⟩
  | fatal msg => rw [ho] at h; simp [Outcome.next] at h
  | panic st2 msg =>
    exfalso
    unfold createRequestHandler at ho
    cases hb : inp.bodyErr with
    | some e => simp [hb] at ho
    | none =>
      simp only [hb] at ho
      cases hv : (getOptions (nextByte st) inp.req).createVMM Context.background inp.vmm with
      | mk calls res =>
        cases res with
        | error e => simp [hv] at ho
        | ok running =>
          cases hu : pseudo_uuid inp.rnd with
          | error e => simp [hv, hu] at ho
          | ok id => simp [hv, hu] at ho

theorem deleteRequestHandler_next (st st1 : State) (inp : DeleteInput)
    (h : (deleteRequestHandler st inp).outcome.next = some st1) :
    st1.ipByte = st.ipByte := by
  unfold deleteRequestHandler at h
  cases hb : inp.bodyErr with
  | some e => simp [hb, Outcome.next] at h
  | none =>
    simp only [hb] at h
    cases hm : (st.runningVMs.index inp.req.ID).machine with
    | none =>
      simp [hm, StopVMM, Outcome.next] at h
      rw [h]
    | some m =>
      simp [hm, StopVMM, Outcome.next] at h
      rw [← h]

theorem attempts_getElem (reqs : List Request) :
    ∀ (st : State) (i : Nat) (o : options), (attempts st reqs)[i]? = some o →
      ∃ r, o = getOptions ((st.ipByte + 1 + i) % 256) r := by
  induction reqs with
  | nil => intro st i o h; simp [attempts] at h
  | cons r rest ih =>
    intro st i o h
    cases r with
    | create inp =>
      cases hb : inp.bodyErr with
      | some e =>
        have hnone : (handle st (.create inp)).outcome.next = none := by
          cases hn : (handle st (.create inp)).outcome.next with
          | none => rfl
          | some st1 =>
            have := (createRequestHandler_next st st1 inp hn).2
            rw [hb] at this
            cases this
        simp [attempts, hb, hnone] at h
      | none =>
        cases i with
        | zero =>
          simp [attempts, hb] at h
          exact ⟨inp.req, by rw [← h]; rfl⟩
        | succ k =>
          simp only [attempts, hb, Option.isNone_none, if_true, List.singleton_append,
            List.getElem?_cons_succ] at h
          cases hn : (handle st (.create inp)).outcome.next with
          | none => simp [hn] at h
          | some st1 =>
            simp only [hn] at h
            obtain ⟨r, hr⟩ := ih st1 k o h
            have hbyte := (createRequestHandler_next st st1 inp hn).1
            refine ⟨r, ?_⟩
            rw [hr, hbyte, nextByte]
            congr 1
            omega
    | delete inp =>
      simp only [attempts, List.nil_append] at h
      cases hn : (handle st (.delete inp)).outcome.next with
      | none => simp [hn] at h
      | some st1 =>
        simp only [hn] at h
        obtain ⟨r, hr⟩ := ih st1 i o h
        have hbyte := deleteRequestHandler_next st st1 inp hn
        exact ⟨r, by rw [hr, hbyte]⟩

/-- C10: a create request allocates from the counter advanced by one modulo
256, and the process goes on with that counter, while a delete leaves the
counter alone; `getOptions` is injective in the counter byte on each of IP
address, MAC address, tap device name and socket path; hence two create
attempts of one sequence of requests whose positions among the attempts
differ by at least 1 and at most 255 are allocated different IP addresses,
MAC addresses, tap device names and socket paths. -/
theorem C10_allocation_collision_free :
    (∀ st inp, allocation st inp = getOptions ((st.ipByte + 1) % 256) inp.req ∧
      (∀ st1, (createRequestHandler st inp).outcome.next = some st1 →
        st1.ipByte = (st.ipByte + 1) % 256)) ∧
    (∀ st inp st1, (deleteRequestHandler st inp).outcome.next = some st1 →
      st1.ipByte = st.ipByte) ∧
    (∀ a b r1 r2, a < 256 → b < 256 →
      ((getOptions a r1).FcIP = (getOptions b r2).FcIP ∨
        (getOptions a r1).TapMacAddr = (getOptions b r2).TapMacAddr ∨
        (getOptions a r1).TapDev = (getOptions b r2).TapDev ∨
        (getOptions a r1).FcSocketPath = (getOptions b r2).FcSocketPath) → a = b) ∧
    (∀ st reqs i j oi oj, i < j → j - i ≤ 255 →
      (attempts st reqs)[i]? = some oi → (attempts st reqs)[j]? = some oj →
      oi.FcIP ≠ oj.FcIP ∧ oi.TapMacAddr ≠ oj.TapMacAddr ∧ oi.TapDev ≠ oj.TapDev ∧
        oi.FcSocketPath ≠ oj.FcSocketPath) := by
  refine ⟨fun st inp => ⟨rfl, fun st1 h => (createRequestHandler_next st st1 inp h).1⟩,
    fun st inp st1 h => deleteRequestHandler_next st st1 inp h, ?_, ?_⟩
  · intro a b r1 r2 ha hb h
    rcases h with h | h | h | h
    · exact FcIP_inj a b ha hb r1 r2 h
    · exact TapMacAddr_inj a b ha hb r1 r2 h
    · exact TapDev_inj a b ha hb r1 r2 h
    · exact FcSocketPath_inj a b ha hb r1 r2 h
  · intro st reqs i j oi oj hij hd hi hj
    obtain ⟨r1, rfl⟩ := attempts_getElem reqs st i oi hi
    obtain ⟨r2, rfl⟩ := attempts_getElem reqs st j oj hj
    have ha : (st.ipByte + 1 + i) % 256 < 256 := Nat.mod_lt _ (by decide)
    have hb : (st.ipByte + 1 + j) % 256 < 256 := Nat.mod_lt _ (by decide)
    have hne : (st.ipByte + 1 + i) % 256 ≠ (st.ipByte + 1 + j) % 256 := by omega
    exact ⟨fun h => hne (FcIP_inj _ _ ha hb r1 r2 h),
      fun h => hne (TapMacAddr_inj _ _ ha hb r1 r2 h),
      fun h => hne (TapDev_inj _ _ ha hb r1 r2 h),
      fun h => hne (FcSocketPath_inj _ _ ha hb r1 r2 h)⟩

/-! ## Identifiers -/

theorem udigits_eq_digitChar : ∀ k < 16, udigits.getD k '?' = (Nat.digitChar k).toUpper := by
  decide

theorem digitChar_upper_hex : ∀ k < 16, isUpperHexDigit (Nat.digitChar k).toUpper = true := by
  decide

theorem digitChar_upper_inj : ∀ i < 16, ∀ j < 16,
    (Nat.digitChar i).toUpper = (Nat.digitChar j).toUpper → i = j := by
  decide

theorem digitChar_upper_ne_dash : ∀ k < 16, (Nat.digitChar k).toUpper ≠ '-' := by
  decide

theorem hexd_hi (x : Nat) (hx : x < 256) :
    isUpperHexDigit (Nat.digitChar (x / 16)).toUpper = true :=
  digitChar_upper_hex _ (by omega)

theorem hexd_lo (x : Nat) : isUpperHexDigit (Nat.digitChar (x % 16)).toUpper = true :=
  digitChar_upper_hex _ (Nat.mod_lt _ (by decide))

theorem fmtSbx_udigits (bs : List Nat) (h : ∀ x ∈ bs, x < 256) :
    fmtSbx udigits bs = bs.flatMap hexByte := by
  induction bs with
  | nil => rfl
  | cons x rest ih =>
    have hx : x < 256 := h x (List.mem_cons_self _ _)
    have hrest : ∀ y ∈ rest, y < 256 := fun y hy => h y (List.mem_cons_of_mem _ hy)
    have ih1 := ih hrest
    simp only [fmtSbx] at ih1 ⊢
    simp only [List.flatMap_cons, ih1, hexByte,
      udigits_eq_digitChar (x / 16) (by omega),
      udigits_eq_digitChar (x % 16) (Nat.mod_lt _ (by decide))]

theorem hexByte_inj (x y : Nat) (hx : x < 256) (hy : y < 256) (h : hexByte x = hexByte y) :
    x = y := by
  simp only [hexByte, List.cons.injEq, and_true] at h
  have h1 := digitChar_upper_inj _ (by omega) _ (by omega) h.1
  have h2 := digitChar_upper_inj _ (Nat.mod_lt _ (by decide)) _ (Nat.mod_lt _ (by decide)) h.2
  omega

theorem flatMap_hexByte_inj (l1 : List Nat) :
    ∀ l2 : List Nat, (∀ x ∈ l1, x < 256) → (∀ x ∈ l2, x < 256) →
      l1.flatMap hexByte = l2.flatMap hexByte → l1 = l2 := by
  induction l1 with
  | nil =>
    intro l2 _ _ h
    cases l2 with
    | nil => rfl
    | cons y t => simp [hexByte] at h
  | cons x s ih =>
    intro l2 h1 h2 h
    cases l2 with
    | nil => simp [hexByte] at h
    | cons y t =>
      have hx : x < 256 := h1 x (List.mem_cons_self _ _)
      have hy : y < 256 := h2 y (List.mem_cons_self _ _)
      simp only [List.flatMap_cons, hexByte, List.cons_append, List.nil_append,
        List.cons.injEq] at h
      have hxy : x = y := hexByte_inj x y hx hy (by simp [hexByte, h.1, h.2.1])
      have hst := ih t (fun z hz => h1 z (List.mem_cons_of_mem _ hz))
        (fun z hz => h2 z (List.mem_cons_of_mem _ hz)) h.2.2
      rw [hxy, hst]

theorem length_eq_16 (b : List Nat) (h : b.length = 16) :
    ∃ b0 b1 b2 b3 b4 b5 b6 b7 b8 b9 b10 b11 b12 b13 b14 b15,
      b = [b0, b1, b2, b3, b4, b5, b6, b7, b8, b9, b10, b11, b12, b13, b14, b15] := by
  rcases b with _ | ⟨b0, _ | ⟨b1, _ | ⟨b2, _ | ⟨b3, _ | ⟨b4, _ | ⟨b5, _ | ⟨b6, _ | ⟨b7,
    _ | ⟨b8, _ | ⟨b9, _ | ⟨b10, _ | ⟨b11, _ | ⟨b12, _ | ⟨b13, _ | ⟨b14, _ | ⟨b15,
    _ | ⟨b16, t⟩⟩⟩⟩⟩⟩⟩⟩⟩⟩⟩⟩⟩⟩⟩⟩⟩ <;>
  first
  | exact ⟨_, _, _, _, _, _, _, _, _, _, _, _, _, _, _, _, rfl⟩
  | (simp only [List.length] at h; omega)

theorem pseudo_uuid_data (b : List Nat) (hb : ∀ x ∈ b, x < 256) :
    ∃ s, pseudo_uuid (.ok b) = .ok s ∧
      s.data = (slice b 0 4).flatMap hexByte ++ '-' :: (slice b 4 6).flatMap hexByte ++ '-' ::
        (slice b 6 8).flatMap hexByte ++ '-' :: (slice b 8 10).flatMap hexByte ++ '-' ::
        (b.drop 10).flatMap hexByte := by
  refine ⟨_, rfl, ?_⟩
  have hs : ∀ lo hi, ∀ x ∈ slice b lo hi, x < 256 := fun lo hi x hx =>
    hb x (List.mem_of_mem_take (List.mem_of_mem_drop hx))
  have hd : ∀ x ∈ b.drop 10, x < 256 := fun x hx => hb x (List.mem_of_mem_drop hx)
  rw [Sprintf_uuid, fmtSbx_udigits _ (hs 0 4), fmtSbx_udigits _ (hs 4 6),
    fmtSbx_udigits _ (hs 6 8), fmtSbx_udigits _ (hs 8 10), fmtSbx_udigits _ hd]

theorem filter_flatMap_hexByte (bs : List Nat) (h : ∀ x ∈ bs, x < 256) :
    (bs.flatMap hexByte).filter (fun c => c != '-') = bs.flatMap hexByte := by
  rw [List.filter_eq_self]
  intro c hc
  obtain ⟨x, hx, hcx⟩ := List.mem_flatMap.mp hc
  have hx256 := h x hx
  simp only [hexByte, List.mem_cons, List.mem_singleton, List.not_mem_nil, or_false] at hcx
  rcases hcx with rfl | rfl
  · simpa using digitChar_upper_ne_dash (x / 16) (by omega)
  · simpa using digitChar_upper_ne_dash (x % 16) (Nat.mod_lt _ (by decide))

theorem pseudo_uuid_filter (b : List Nat) (hlen : b.length = 16) (hb : ∀ x ∈ b, x < 256)
    (s : String) (hs : pseudo_uuid (.ok b) = .ok s) :
    s.data.filter (fun c => c != '-') = b.flatMap hexByte := by
  obtain ⟨s1, hs1, hdata⟩ := pseudo_uuid_data b hb
  rw [hs] at hs1
  cases hs1
  have hsl : ∀ lo hi, ∀ x ∈ slice b lo hi, x < 256 := fun lo hi x hx =>
    hb x (List.mem_of_mem_take (List.mem_of_mem_drop hx))
  have hd : ∀ x ∈ b.drop 10, x < 256 := fun x hx => hb x (List.mem_of_mem_drop hx)
  have hne : (('-' : Char) != '-') = false := by decide
  rw [hdata]
  simp only [List.filter_append, List.filter_cons, hne, filter_flatMap_hexByte _ (hsl _ _),
    filter_flatMap_hexByte _ hd, Bool.false_eq_true, if_false]
  obtain ⟨b0, b1, b2, b3, b4, b5, b6, b7, b8, b9, b10, b11, b12, b13, b14, b15, rfl⟩ :=
    length_eq_16 b hlen
  simp [slice]

theorem pseudo_uuid_length (b : List Nat) (hlen : b.length = 16) (hb : ∀ x ∈ b, x < 256)
    (s : String) (hs : pseudo_uuid (.ok b) = .ok s) : s.length = 36 := by
  obtain ⟨s1, hs1, hdata⟩ := pseudo_uuid_data b hb
  rw [hs] at hs1
  cases hs1
  obtain ⟨b0, b1, b2, b3, b4, b5, b6, b7, b8, b9, b10, b11, b12, b13, b14, b15, rfl⟩ :=
    length_eq_16 b hlen
  simp [String.length, hdata, slice, hexByte]

theorem pseudo_uuid_groups (b : List Nat) (hlen : b.length = 16) (hb : ∀ x ∈ b, x < 256)
    (s : String) (hs : pseudo_uuid (.ok b) = .ok s) :
    s.data = (b.take 4).flatMap hexByte ++ '-' :: ((b.drop 4).take 2).flatMap hexByte ++
      '-' :: ((b.drop 6).take 2).flatMap hexByte ++ '-' ::
      ((b.drop 8).take 2).flatMap hexByte ++ '-' :: (b.drop 10).flatMap hexByte := by
  obtain ⟨s1, hs1, hdata⟩ := pseudo_uuid_data b hb
  rw [hs] at hs1
  cases hs1
  obtain ⟨b0, b1, b2, b3, b4, b5, b6, b7, b8, b9, b10, b11, b12, b13, b14, b15, rfl⟩ :=
    length_eq_16 b hlen
  simp [hdata, slice]

theorem pseudo_uuid_chars (b : List Nat) (hlen : b.length = 16) (hb : ∀ x ∈ b, x < 256)
    (s : String) (hs : pseudo_uuid (.ok b) = .ok s) :
    ∃ c : Nat → Char, s.data = (List.range 36).map c ∧
      (∀ i ∈ dashPositions, c i = '-') ∧
      (∀ i < 36, i ∉ dashPositions → isUpperHexDigit (c i) = true) := by
  have hdata := pseudo_uuid_groups b hlen hb s hs
  obtain ⟨b0, b1, b2, b3, b4, b5, b6, b7, b8, b9, b10, b11, b12, b13, b14, b15, rfl⟩ :=
    length_eq_16 b hlen
  simp only [List.mem_cons, List.mem_singleton, List.not_mem_nil, or_false,
    forall_eq_or_imp, forall_eq] at hb
  obtain ⟨h0, h1, h2, h3, h4, h5, h6, h7, h8, h9, h10, h11, h12, h13, h14, h15⟩ := hb
  refine ⟨fun i => s.data.getD i '-', ?_, ?_, ?_⟩
  · rw [hdata]
    simp [List.range, List.range.loop, hexByte]
  · intro i hi
    simp only [dashPositions, List.mem_cons, List.mem_singleton, List.not_mem_nil,
      or_false] at hi
    rcases hi with rfl | rfl | rfl | rfl <;> simp [hdata, hexByte]
  · intro i hi hdash
    simp only [dashPositions, List.mem_cons, List.mem_singleton, List.not_mem_nil,
      or_false, not_or] at hdash
    obtain ⟨d1, d2, d3, d4⟩ := hdash
    rw [hdata]
    simp only [hexByte, List.take, List.drop, List.flatMap_cons,
      List.flatMap_nil, List.cons_append, List.nil_append, List.append_nil]
    interval_cases i <;>
      first
      | exact absurd rfl d1
      | exact absurd rfl d2
      | exact absurd rfl d3
      | exact absurd rfl d4
      | (simp only [List.getD_cons_succ, List.getD_cons_zero]
         apply digitChar_upper_hex
         omega)

/-- C6: for every 16 bytes the random source yields, `pseudo_uuid` returns a
text of exactly 36 characters with `-` at positions 8, 13, 18 and 23 and an
upper-case hexadecimal digit everywhere else; the text is the two-digit
renderings of bytes 0-3, 4-5, 6-7, 8-9 and 10-15, the groups separated by `-`,
so its digits are those of the 16 bytes in order and no other 16 bytes give
the same identifier. -/
theorem C6_pseudo_uuid_format (b : List Nat) (hlen : b.length = 16)
    (hb : ∀ x ∈ b, x < 256) :
    ∃ s, pseudo_uuid (.ok b) = .ok s ∧ s.length = 36 ∧
      (∀ i ∈ dashPositions, s.data[i]? = some '-') ∧
      (∀ i < 36, i ∉ dashPositions → ∃ c, s.data[i]? = some c ∧ isUpperHexDigit c = true) ∧
      s.data = (b.take 4).flatMap hexByte ++ '-' :: ((b.drop 4).take 2).flatMap hexByte ++
        '-' :: ((b.drop 6).take 2).flatMap hexByte ++ '-' ::
        ((b.drop 8).take 2).flatMap hexByte ++ '-' :: (b.drop 10).flatMap hexByte ∧
      s.data.filter (fun c => c != '-') = b.flatMap hexByte ∧
      (∀ b1 : List Nat, b1.length = 16 → (∀ x ∈ b1, x < 256) →
        pseudo_uuid (.ok b1) = .ok s → b1 = b) := by
  obtain ⟨s, hs, -⟩ := pseudo_uuid_data b hb
  have hfilter := pseudo_uuid_filter b hlen hb s hs
  obtain ⟨c, hc, hdash, hhex⟩ := pseudo_uuid_chars b hlen hb s hs
  have hget : ∀ i < 36, s.data[i]? = some (c i) := by
    intro i hi
    rw [hc, List.getElem?_map, List.getElem?_range hi]
    rfl
  refine ⟨s, hs, pseudo_uuid_length b hlen hb s hs, ?_, ?_,
    pseudo_uuid_groups b hlen hb s hs, hfilter, ?_⟩
  · intro i hi
    have hi36 : i < 36 := by
      simp only [dashPositions, List.mem_cons, List.mem_singleton, List.not_mem_nil,
        or_false] at hi
      omega
    rw [hget i hi36, hdash i hi]
  · intro i hi hnd
    exact ⟨c i, hget i hi, hhex i hi hnd⟩
  · intro b1 hlen1 hb1 hs1
    have hfilter1 := pseudo_uuid_filter b1 hlen1 hb1 s hs1
    rw [hfilter] at hfilter1
    exact (flatMap_hexByte_inj b _ hb hb1 hfilter1).symm

theorem C6_pseudo_uuid_format_witness :
    (idBytes 1).length = 16 ∧ (∀ x ∈ idBytes 1, x < 256) ∧
      ∃ s, pseudo_uuid (.ok (idBytes 1)) = .ok s ∧ s.length = 36 ∧
        s.data.filter (fun c => c != '-') = (idBytes 1).flatMap hexByte :=
  ⟨by decide, by decide,
    match C6_pseudo_uuid_format (idBytes 1) (by decide) (by decide) with
    | ⟨s, h1, h2, _, _, _, h6, _⟩ => ⟨s, h1, h2, h6⟩⟩

/-! ## Provisioning -/

theorem createVMM_exec_order (opts : options) (ctx : Context) (env : VMMEnv) :
    (opts.createVMM ctx env).1.filter Call.isExec <+: provisionCommands opts ∧
    (opts.createVMM ctx env).1.take 2 = (provisionCommands opts).take 2 ∧
    ((∃ c ∈ (opts.createVMM ctx env).1, c.isEngineStart = true) →
      hostOutcomes env = [none, none, none, none, none]) := by
  obtain ⟨e1, e2, e3, e4, e5, e6, e7, e8⟩ := env
  cases e2 with
  | some _ => simp [options.createVMM, provisionCommands, Call.isExec, Call.isEngineStart]
  | none =>
  cases e3 with
  | some _ => simp [options.createVMM, provisionCommands, Call.isExec, Call.isEngineStart]
  | none =>
  cases e4 with
  | some _ => simp [options.createVMM, provisionCommands, Call.isExec, Call.isEngineStart]
  | none =>
  cases e5 with
  | some _ => simp [options.createVMM, provisionCommands, Call.isExec, Call.isEngineStart]
  | none =>
  cases e6 with
  | some _ => simp [options.createVMM, provisionCommands, Call.isExec, Call.isEngineStart]
  | none =>
  cases e7 with
  | some _ =>
    simp [options.createVMM, provisionCommands, Call.isExec, Call.isEngineStart, hostOutcomes]
  | none =>
  cases e8 with
  | some _ =>
    simp [options.createVMM, provisionCommands, Call.isExec, Call.isEngineStart, hostOutcomes]
  | none =>
    simp [options.createVMM, provisionCommands, Call.isExec, Call.isEngineStart, hostOutcomes]

theorem createVMM_linkDel_ignored (opts : options) (ctx : Context) (env : VMMEnv)
    (e : Option String) :
    opts.createVMM ctx { env with linkDel := e } = opts.createVMM ctx env := rfl

theorem createVMM_first_failure (opts : options) (ctx : Context) (env : VMMEnv)
    (k : Nat) (err : String) (hk : (hostOutcomes env)[k]? = some (some err))
    (hj : ∀ j < k, (hostOutcomes env)[j]? = some none) :
    (opts.createVMM ctx env).1 = (provisionCommands opts).take (k + 2) ∧
      ∃ msg, (opts.createVMM ctx env).2 = .error msg := by
  obtain ⟨e1, e2, e3, e4, e5, e6, e7, e8⟩ := env
  simp only [hostOutcomes] at hk hj
  rcases k with _ | _ | _ | _ | _ | k
  · simp at hk
    subst hk
    simp [options.createVMM, provisionCommands]
  · have h0 := hj 0 (by omega)
    simp at hk h0
    subst hk h0
    simp [options.createVMM, provisionCommands]
  · have h0 := hj 0 (by omega)
    have h1 := hj 1 (by omega)
    simp at hk h0 h1
    subst hk h0 h1
    simp [options.createVMM, provisionCommands]
  · have h0 := hj 0 (by omega)
    have h1 := hj 1 (by omega)
    have h2 := hj 2 (by omega)
    simp at hk h0 h1 h2
    subst hk h0 h1 h2
    simp [options.createVMM, provisionCommands]
  · have h0 := hj 0 (by omega)
    have h1 := hj 1 (by omega)
    have h2 := hj 2 (by omega)
    have h3 := hj 3 (by omega)
    simp at hk h0 h1 h2 h3
    subst hk h0 h1 h2 h3
    simp [options.createVMM, provisionCommands]
  · simp at hk

theorem createVMM_ok_iff (opts : options) (ctx : Context) (env : VMMEnv) :
    (∃ h, (opts.createVMM ctx env).2 = .ok h) ↔
      hostOutcomes env = [none, none, none, none, none] ∧ env.newMachine = none ∧
        env.start = none := by
  constructor
  · rintro ⟨h, hok⟩
    obtain ⟨h1, h2, h3, -⟩ := createVMM_ok opts ctx env h hok
    exact ⟨h1, h2, h3⟩
  · rintro ⟨h1, h2, h3⟩
    obtain ⟨e1, e2, e3, e4, e5, e6, e7, e8⟩ := env
    simp only [hostOutcomes, List.cons.injEq, and_true] at h1
    obtain ⟨a2, a3, a4, a5, a6⟩ := h1
    simp only at h2 h3
    subst a2 a3 a4 a5 a6 h2 h3
    simp [options.createVMM]

theorem createRequestHandler_vmm_error (st : State) (inp : CreateInput)
    (hbody : inp.bodyErr = none)
    (hfail : ∀ h, ((allocation st inp).createVMM .background inp.vmm).2 ≠ .ok h) :
    ∃ msg, createRequestHandler st inp
      = { calls := ((allocation st inp).createVMM .background inp.vmm).1,
          outcome := .fatal msg } := by
  unfold allocation at hfail ⊢
  unfold createRequestHandler
  simp only [hbody]
  cases hv : (getOptions (nextByte st) inp.req).createVMM Context.background inp.vmm with
  | mk calls res =>
    cases res with
    | error e => exact ⟨e, rfl⟩
    | ok running => exact absurd (by rw [hv]) (hfail running)

theorem Sprintf_proxy_arp (tap : String) :
    Sprintf "net.ipv4.conf.%s.proxy_arp=1" [.str tap]
      = "net.ipv4.conf." ++ tap ++ ".proxy_arp=1" := by
  apply String.ext
  simp [Sprintf, doPrintf, printVerb, pad]

theorem Sprintf_disable_ipv6 (tap : String) :
    Sprintf "net.ipv6.conf.%s.disable_ipv6=1" [.str tap]
      = "net.ipv6.conf." ++ tap ++ ".disable_ipv6=1" := by
  apply String.ext
  simp [Sprintf, doPrintf, printVerb, pad]

/-- The host commands of `createVMM`, spelled out. -/
theorem provisionCommands_eq (opts : options) :
    provisionCommands opts =
      [ .exec "ip" ["link", "del", opts.TapDev],
        .exec "ip" ["tuntap", "add", "dev", opts.TapDev, "mode", "tap"],
        .exec "rm" ["-f", opts.FcSocketPath],
        .exec "ip" ["link", "set", opts.TapDev, "up"],
        .exec "sysctl" ["-w", "net.ipv4.conf." ++ opts.TapDev ++ ".proxy_arp=1"],
        .exec "sysctl" ["-w", "net.ipv6.conf." ++ opts.TapDev ++ ".disable_ipv6=1"] ] := by
  rw [provisionCommands, Sprintf_proxy_arp, Sprintf_disable_ipv6]

theorem createVMM_all_ok (opts : options) (ctx : Context) (env : VMMEnv)
    (hhost : hostOutcomes env = [none, none, none, none, none])
    (hnew : env.newMachine = none) (hstart : env.start = none) :
    opts.createVMM ctx env =
      (provisionCommands opts ++
        [ .newMachine (.withCancel ctx) opts.getConfig
            { Bin := opts.FcBinary, SocketPath := opts.FcSocketPath },
          .start { Cfg := opts.getConfig,
                   cmd := { Bin := opts.FcBinary, SocketPath := opts.FcSocketPath } }
            (.withCancel ctx),
          .installSignalHandlers (.withCancel ctx)
            { Cfg := opts.getConfig,
              cmd := { Bin := opts.FcBinary, SocketPath := opts.FcSocketPath } } ],
        .ok { ctx := some (.withCancel ctx), cancelCtx := some (.withCancel ctx),
              machine := some
                { Cfg := opts.getConfig,
                  cmd := { Bin := opts.FcBinary, SocketPath := opts.FcSocketPath } } }) := by
  obtain ⟨e1, e2, e3, e4, e5, e6, e7, e8⟩ := env
  simp only [hostOutcomes, List.cons.injEq, and_true] at hhost
  obtain ⟨a2, a3, a4, a5, a6⟩ := hhost
  simp only at hnew hstart
  subst a2 a3 a4 a5 a6 hnew hstart
  simp [options.createVMM, options.getConfig]

/-- C7: whatever the outcomes of the external commands, the host commands
`createVMM` issues are a prefix of the sequence (a) `ip link del <tap>`, (b)
`ip tuntap add dev <tap> mode tap`, (c) `rm -f <socket>`, (d)
`ip link set <tap> up`, (e) `sysctl -w net.ipv4.conf.<tap>.proxy_arp=1`, (f)
`sysctl -w net.ipv6.conf.<tap>.disable_ipv6=1`, of which (a) and (b) are
always issued; the outcome of (a) changes nothing; at the first failure among
(b)-(f) `createVMM` has issued the commands up to that one, nothing else, and
returns an error; an engine call is made only if (b)-(f) all succeeded; a
handle is returned exactly if (b)-(f), `NewMachine` and `Start` all succeeded,
and then the calls are (a)-(f), `NewMachine`, `Start` and the installation of
the signal handlers, in this order; and when no handle is returned
`createRequestHandler` ends in `log.Fatalf`, with no new state and so no
registry insertion. -/
theorem C7_provisioning_order_and_abort (opts : options) (ctx : Context) (env : VMMEnv) :
    (opts.createVMM ctx env).1.filter Call.isExec <+:
      [ .exec "ip" ["link", "del", opts.TapDev],
        .exec "ip" ["tuntap", "add", "dev", opts.TapDev, "mode", "tap"],
        .exec "rm" ["-f", opts.FcSocketPath],
        .exec "ip" ["link", "set", opts.TapDev, "up"],
        .exec "sysctl" ["-w", "net.ipv4.conf." ++ opts.TapDev ++ ".proxy_arp=1"],
        .exec "sysctl" ["-w", "net.ipv6.conf." ++ opts.TapDev ++ ".disable_ipv6=1"] ] ∧
    (opts.createVMM ctx env).1.take 2 =
      [ .exec "ip" ["link", "del", opts.TapDev],
        .exec "ip" ["tuntap", "add", "dev", opts.TapDev, "mode", "tap"] ] ∧
    (∀ e, opts.createVMM ctx { env with linkDel := e } = opts.createVMM ctx env) ∧
    (∀ k err, (hostOutcomes env)[k]? = some (some err) →
      (∀ j < k, (hostOutcomes env)[j]? = some none) →
      (opts.createVMM ctx env).1 =
        List.take (k + 2)
          [ .exec "ip" ["link", "del", opts.TapDev],
            .exec "ip" ["tuntap", "add", "dev", opts.TapDev, "mode", "tap"],
            .exec "rm" ["-f", opts.FcSocketPath],
            .exec "ip" ["link", "set", opts.TapDev, "up"],
            .exec "sysctl" ["-w", "net.ipv4.conf." ++ opts.TapDev ++ ".proxy_arp=1"],
            .exec "sysctl" ["-w", "net.ipv6.conf." ++ opts.TapDev ++ ".disable_ipv6=1"] ] ∧
        ∃ msg, (opts.createVMM ctx env).2 = .error msg) ∧
    ((∃ c ∈ (opts.createVMM ctx env).1, c.isEngineStart = true) →
      hostOutcomes env = [none, none, none, none, none]) ∧
    ((∃ h, (opts.createVMM ctx env).2 = .ok h) ↔
      hostOutcomes env = [none, none, none, none, none] ∧ env.newMachine = none ∧
        env.start = none) ∧
    (hostOutcomes env = [none, none, none, none, none] → env.newMachine = none →
      env.start = none →
      (opts.createVMM ctx env).1 =
        [ .exec "ip" ["link", "del", opts.TapDev],
          .exec "ip" ["tuntap", "add", "dev", opts.TapDev, "mode", "tap"],
          .exec "rm" ["-f", opts.FcSocketPath],
          .exec "ip" ["link", "set", opts.TapDev, "up"],
          .exec "sysctl" ["-w", "net.ipv4.conf." ++ opts.TapDev ++ ".proxy_arp=1"],
          .exec "sysctl" ["-w", "net.ipv6.conf." ++ opts.TapDev ++ ".disable_ipv6=1"],
          .newMachine (.withCancel ctx) opts.getConfig
            { Bin := opts.FcBinary, SocketPath := opts.FcSocketPath },
          .start { Cfg := opts.getConfig,
                   cmd := { Bin := opts.FcBinary, SocketPath := opts.FcSocketPath } }
            (.withCancel ctx),
          .installSignalHandlers (.withCancel ctx)
            { Cfg := opts.getConfig,
              cmd := { Bin := opts.FcBinary, SocketPath := opts.FcSocketPath } } ]) ∧
    (∀ st inp, inp.bodyErr = none →
      (∀ h, ((allocation st inp).createVMM .background inp.vmm).2 ≠ .ok h) →
      ∃ msg, createRequestHandler st inp
        = { calls := ((allocation st inp).createVMM .background inp.vmm).1,
            outcome := .fatal msg }) := by
  refine ⟨?_, ?_, createVMM_linkDel_ignored opts ctx env, ?_,
    (createVMM_exec_order opts ctx env).2.2, createVMM_ok_iff opts ctx env, ?_,
    createRequestHandler_vmm_error⟩
  · rw [← provisionCommands_eq]
    exact (createVMM_exec_order opts ctx env).1
  · rw [(createVMM_exec_order opts ctx env).2.1, provisionCommands_eq]
    rfl
  · intro k err hk hj
    rw [← provisionCommands_eq]
    exact createVMM_first_failure opts ctx env k err hk hj
  · intro hhost hnew hstart
    rw [createVMM_all_ok opts ctx env hhost hnew hstart, provisionCommands_eq]
    rfl

/-! ## Signals -/

theorem installSignalHandlers_eq_flatMap (ctx : Context) (m : Machine)
    (sigs : List Signal) :
    installSignalHandlers ctx m sigs = sigs.flatMap (handleSignal ctx m) := by
  induction sigs with
  | nil => rfl
  | cons s rest ih => simp [installSignalHandlers, ih]

/-- C8: in the handler loop of `installSignalHandlers`, SIGQUIT makes exactly
one machine call, a forced stop (`StopVMM`), with no `Shutdown` before it;
SIGINT and SIGTERM each make exactly one machine call, a graceful shutdown
request (`Shutdown`), and no forced stop; any other signal makes no call; and
for any sequence of received signals the calls made are those of the single
signals, in the order of arrival. -/
theorem C8_signal_actions (ctx : Context) (m : Machine) :
    handleSignal ctx m SIGQUIT
      = [.logPrintf "Caught SIGTERM, forcing shutdown", .stopVMM (some m)] ∧
    handleSignal ctx m Interrupt
      = [.logPrintf "Caught SIGINT, requesting clean shutdown", .shutdown m ctx] ∧
    handleSignal ctx m SIGTERM
      = [.logPrintf "Caught SIGINT, requesting clean shutdown", .shutdown m ctx] ∧
    (handleSignal ctx m SIGQUIT).filter Call.isMachineAction = [.stopVMM (some m)] ∧
    (handleSignal ctx m Interrupt).filter Call.isMachineAction = [.shutdown m ctx] ∧
    (handleSignal ctx m SIGTERM).filter Call.isMachineAction = [.shutdown m ctx] ∧
    (∀ s, s ≠ SIGQUIT → s ≠ Interrupt → s ≠ SIGTERM → handleSignal ctx m s = []) ∧
    (∀ sigs, installSignalHandlers ctx m sigs = sigs.flatMap (handleSignal ctx m)) ∧
    (∀ sigs, (installSignalHandlers ctx m sigs).filter Call.isMachineAction
      = sigs.flatMap fun s => (handleSignal ctx m s).filter Call.isMachineAction) := by
  refine ⟨by simp [handleSignal, SIGQUIT, SIGTERM, Interrupt],
    by simp [handleSignal, SIGTERM, Interrupt],
    by simp [handleSignal, SIGTERM, Interrupt],
    by simp [handleSignal, SIGQUIT, SIGTERM, Interrupt, Call.isMachineAction],
    by simp [handleSignal, SIGQUIT, SIGTERM, Interrupt, Call.isMachineAction],
    by simp [handleSignal, SIGQUIT, SIGTERM, Interrupt, Call.isMachineAction],
    ?_, installSignalHandlers_eq_flatMap ctx m, ?_⟩
  · intro s h1 h2 h3
    simp [handleSignal, h1, h2, h3]
  · intro sigs
    rw [installSignalHandlers_eq_flatMap]
    induction sigs with
    | nil => rfl
    | cons s rest ih => simp [List.flatMap_cons, List.filter_append, ih]

end FcEx
